import Mathlib

/-!
# Button: debounce and gesture recognition (`src/button.cpp`, `src/button.h`)

A shallow embedding of the `Button` class.  One call of `Button::update` reads the clock
(`millis()`) and the pin (`digitalRead(pin)`) once each; here the two readings are the
arguments `mills` and `newState` of `Button.update`.  The five callbacks are function
pointers called for their effect; the embedding records each call, in program order, as an
`Event`, so that `Button.update` returns the next object state together with the list of
calls it made.

Logic levels (`HIGH`, `LOW`, the results of `digitalRead`) are two-valued and modelled by
`Bool`.  `unsigned long` is 32 bits wide; timestamps are natural numbers and every
subtraction of timestamps is taken modulo `2 ^ 32` (`subUL`).
-/

/-- Arduino logic level `HIGH` (`0x1`). -/
abbrev HIGH : Bool := true

/-- Arduino logic level `LOW` (`0x0`). -/
abbrev LOW : Bool := false

/-- Number of values of an `unsigned long` (`2 ^ 32`). -/
abbrev ULONG_MOD : Nat := 4294967296

/-- Number of values of a `uint16_t` (`2 ^ 16`). -/
abbrev UINT16_MOD : Nat := 65536

/-- Subtraction `a - b` of two `unsigned long` values: the difference modulo `2 ^ 32`. -/
def subUL (a b : Nat) : Nat := (a + (ULONG_MOD - b % ULONG_MOD)) % ULONG_MOD

/-- The `Button_Action` enumeration of `button.cpp`. -/
inductive Button_Action where
  | ACTION_SINGLE_PRESS
  | ACTION_DOUBLE_PRESS
  | ACTION_LONG_PRESS
  | ACTION_NONE
  deriving DecidableEq, Repr

/-- The `Button_Mode` enumeration of `button.h`. -/
inductive Button_Mode where
  | ACTIVE_LOW
  | ACTIVE_HIGH
  | ACTIVE_LOW_INTERNAL
  deriving DecidableEq, Repr

/-- A function pointer stored in one of the callback slots: one of the five default no-op
functions of `button.cpp`, or a function registered by the host (named by a number). -/
inductive Callback where
  | defaultOnPressFunc
  | defaultOnReleaseFunc
  | defaultOnSinglePressFunc
  | defaultOnDoublePressFunc
  | defaultOnLongPressFunc
  | user (id : Nat)
  deriving DecidableEq, Repr

/-- A call made by `update` through one of the five callback slots. -/
inductive Event where
  | onPress
  | onRelease
  | onSinglePress
  | onDoublePress
  | onLongPress
  deriving DecidableEq, Repr

/-- The data members of `class Button`. -/
structure Button where
  pin : Nat
  activeState : Bool
  state : Bool
  onPressFunc : Callback
  onReleaseFunc : Callback
  onSinglePressFunc : Callback
  onDoublePressFunc : Callback
  onLongPressFunc : Callback
  debounceTime : Nat
  lastDebounceTime : Nat
  lastState : Bool
  doublePressInterval : Nat
  longPressTime : Nat
  lastPressTime : Nat
  lastReleaseTime : Nat
  action : Button_Action
  deriving DecidableEq, Repr

/-- `Button::begin`: choose the active level from the mode and take the current pin reading
(`reading` is the result of `digitalRead(pin)`) as the state, without debouncing. -/
def Button.begin (b : Button) (mode : Button_Mode) (reading : Bool) : Button :=
  let b1 : Button :=
    match mode with
    | Button_Mode.ACTIVE_LOW => { b with activeState := LOW }
    | Button_Mode.ACTIVE_HIGH => { b with activeState := HIGH }
    | Button_Mode.ACTIVE_LOW_INTERNAL => { b with activeState := LOW }
  let b2 : Button := { b1 with state := reading }
  { b2 with lastState := b2.state }

/-- `Button::isPressed`. -/
def Button.isPressed (b : Button) : Bool :=
  b.state == b.activeState

/-- `Button::setDebounceTime`; the parameter is a `uint16_t`. -/
def Button.setDebounceTime (b : Button) (ms : Nat) : Button :=
  { b with debounceTime := ms % UINT16_MOD }

/-- `Button::setDoublePressInterval`; the parameter is a `uint16_t`. -/
def Button.setDoublePressInterval (b : Button) (ms : Nat) : Button :=
  { b with doublePressInterval := ms % UINT16_MOD }

/-- `Button::setLongPressTime`; the parameter is a `uint16_t`. -/
def Button.setLongPressTime (b : Button) (ms : Nat) : Button :=
  { b with longPressTime := ms % UINT16_MOD }

/-- `Button::setOnPressFunc`. -/
def Button.setOnPressFunc (b : Button) (f : Callback) : Button :=
  { b with onPressFunc := f }

/-- `Button::setOnReleaseFunc`. -/
def Button.setOnReleaseFunc (b : Button) (f : Callback) : Button :=
  { b with onReleaseFunc := f }

/-- `Button::setOnSinglePressFunc`. -/
def Button.setOnSinglePressFunc (b : Button) (f : Callback) : Button :=
  { b with onSinglePressFunc := f }

/-- `Button::setOnDoublePressFunc`. -/
def Button.setOnDoublePressFunc (b : Button) (f : Callback) : Button :=
  { b with onDoublePressFunc := f }

/-- `Button::setOnLongPressFunc`. -/
def Button.setOnLongPressFunc (b : Button) (f : Callback) : Button :=
  { b with onLongPressFunc := f }

/-- Lines 152-155 of `update`: a raw edge restarts the debounce timer. -/
def Button.detectEdge (b : Button) (newState : Bool) (mills : Nat) : Button :=
  if newState ≠ b.lastState then { b with lastDebounceTime := mills } else b

/-- Lines 164-175 of `update`: the branch taken when the accepted state is the active one. -/
def Button.pressed (b : Button) (mills : Nat) : Button × List Event :=
  let b1 : Button := { b with lastPressTime := mills }
  if b1.action = Button_Action.ACTION_SINGLE_PRESS then
    ({ b1 with action := Button_Action.ACTION_DOUBLE_PRESS }, [Event.onPress, Event.onDoublePress])
  else
    ({ b1 with action := Button_Action.ACTION_LONG_PRESS }, [Event.onPress])

/-- Lines 177-186 of `update`: the branch taken when the accepted state is not the active
one. -/
def Button.released (b : Button) (mills : Nat) : Button × List Event :=
  let b1 : Button := { b with lastReleaseTime := mills }
  if b1.action = Button_Action.ACTION_DOUBLE_PRESS then
    ({ b1 with action := Button_Action.ACTION_NONE }, [Event.onRelease])
  else if subUL b1.lastReleaseTime b1.lastPressTime < b1.longPressTime then
    ({ b1 with action := Button_Action.ACTION_SINGLE_PRESS }, [Event.onRelease])
  else
    (b1, [Event.onRelease])

/-- Lines 158-188 of `update`: accept the new state once the debounce time is over. -/
def Button.debounce (b : Button) (newState : Bool) (mills : Nat) : Button × List Event :=
  if subUL mills b.lastDebounceTime ≥ b.debounceTime ∧ newState ≠ b.state then
    let b1 : Button := { b with state := newState }
    if b1.state = b1.activeState then b1.pressed mills else b1.released mills
  else
    (b, [])

/-- Lines 191-194 of `update`: a scheduled single press whose waiting time is over. -/
def Button.checkSinglePress (b : Button) (mills : Nat) : Button × List Event :=
  if b.action = Button_Action.ACTION_SINGLE_PRESS
      ∧ subUL mills b.lastReleaseTime > b.doublePressInterval then
    ({ b with action := Button_Action.ACTION_NONE }, [Event.onSinglePress])
  else
    (b, [])

/-- Lines 197-200 of `update`: a scheduled long press whose press time is reached. -/
def Button.checkLongPress (b : Button) (mills : Nat) : Button × List Event :=
  if b.action = Button_Action.ACTION_LONG_PRESS
      ∧ subUL mills b.lastPressTime ≥ b.longPressTime then
    ({ b with action := Button_Action.ACTION_NONE }, [Event.onLongPress])
  else
    (b, [])

/-- `Button::update`, with `mills = millis()` and `newState = digitalRead(pin)`: the next
object state and the callbacks called, in order. -/
def Button.update (b : Button) (newState : Bool) (mills : Nat) : Button × List Event :=
  let b0 := b.detectEdge newState mills
  let r1 := b0.debounce newState mills
  let r2 := r1.1.checkSinglePress mills
  let r3 := r2.1.checkLongPress mills
  ({ r3.1 with lastState := newState }, r1.2 ++ r2.2 ++ r3.2)

/-- The constructor `Button::Button(uint8_t pin)` (a Lean structure cannot have a function of
its own name in its namespace, hence `ctor`). -/
def Button.ctor (pin : Nat) : Button :=
  { pin := pin % 256
    activeState := LOW
    state := LOW
    onPressFunc := Callback.defaultOnPressFunc
    onReleaseFunc := Callback.defaultOnReleaseFunc
    onSinglePressFunc := Callback.defaultOnSinglePressFunc
    onDoublePressFunc := Callback.defaultOnDoublePressFunc
    onLongPressFunc := Callback.defaultOnLongPressFunc
    debounceTime := 0
    lastDebounceTime := 0
    lastState := LOW
    doublePressInterval := 0
    longPressTime := 0
    lastPressTime := 0
    lastReleaseTime := 0
    action := Button_Action.ACTION_NONE }

/-- One call of `update`: the pin reading and the clock reading it sees. -/
structure Tick where
  raw : Bool
  now : Nat
  deriving DecidableEq, Repr

/-- Successive calls of `update`, one per tick: the final state and all callbacks called. -/
def run (b : Button) : List Tick → Button × List Event
  | [] => (b, [])
  | t :: ts =>
    ((run (b.update t.raw t.now).1 ts).1,
      (b.update t.raw t.now).2 ++ (run (b.update t.raw t.now).1 ts).2)

/-- A button constructed, begun and configured with the three durations. -/
def configured (pin : Nat) (mode : Button_Mode) (reading : Bool)
    (debounceMs doubleMs longMs : Nat) : Button :=
  ((((Button.ctor pin).begin mode reading).setDebounceTime debounceMs).setDoublePressInterval
    doubleMs).setLongPressTime longMs

/-- The press and release callbacks (as opposed to the three gesture callbacks). -/
def Event.isTransition : Event → Bool
  | Event.onPress => true
  | Event.onRelease => true
  | _ => false

/-- The single-press, double-press and long-press callbacks. -/
def Event.isGesture : Event → Bool
  | Event.onSinglePress => true
  | Event.onDoublePress => true
  | Event.onLongPress => true
  | _ => false


/-! ## The effect of one call of `update`, field by field

The functions below name the value each data member has after a call of `update` and the calls
each block makes; `update_eq` proves that `Button.update` computes exactly these. -/

/-- The value of `lastDebounceTime` after lines 152-155 of `update`. -/
def Button.edgeTime (b : Button) (newState : Bool) (mills : Nat) : Nat :=
  if newState ≠ b.lastState then mills else b.lastDebounceTime

/-- The condition of line 158 of `update`, after the edge detection of lines 152-155. -/
def Button.accepts (b : Button) (newState : Bool) (mills : Nat) : Prop :=
  subUL mills (b.edgeTime newState mills) ≥ b.debounceTime ∧ newState ≠ b.state

instance (b : Button) (newState : Bool) (mills : Nat) : Decidable (b.accepts newState mills) := by
  unfold Button.accepts
  infer_instance

/-- The value of `lastPressTime` after `update`. -/
def Button.pressTime (b : Button) (newState : Bool) (mills : Nat) : Nat :=
  if b.accepts newState mills ∧ newState = b.activeState then mills else b.lastPressTime

/-- The value of `lastReleaseTime` after `update`. -/
def Button.releaseTime (b : Button) (newState : Bool) (mills : Nat) : Nat :=
  if b.accepts newState mills ∧ newState ≠ b.activeState then mills else b.lastReleaseTime

/-- The value of `action` after lines 158-188 of `update`. -/
def Button.actionDebounced (b : Button) (newState : Bool) (mills : Nat) : Button_Action :=
  if b.accepts newState mills then
    if newState = b.activeState then
      if b.action = Button_Action.ACTION_SINGLE_PRESS then Button_Action.ACTION_DOUBLE_PRESS
      else Button_Action.ACTION_LONG_PRESS
    else
      if b.action = Button_Action.ACTION_DOUBLE_PRESS then Button_Action.ACTION_NONE
      else if subUL mills b.lastPressTime < b.longPressTime then Button_Action.ACTION_SINGLE_PRESS
      else b.action
  else b.action

/-- The calls made by lines 158-188 of `update`. -/
def Button.debounceCalls (b : Button) (newState : Bool) (mills : Nat) : List Event :=
  if b.accepts newState mills then
    if newState = b.activeState then
      if b.action = Button_Action.ACTION_SINGLE_PRESS then [Event.onPress, Event.onDoublePress]
      else [Event.onPress]
    else [Event.onRelease]
  else []

/-- The condition of line 191 of `update`. -/
def Button.singleFires (b : Button) (newState : Bool) (mills : Nat) : Prop :=
  b.actionDebounced newState mills = Button_Action.ACTION_SINGLE_PRESS
    ∧ subUL mills (b.releaseTime newState mills) > b.doublePressInterval

instance (b : Button) (newState : Bool) (mills : Nat) :
    Decidable (b.singleFires newState mills) := by
  unfold Button.singleFires
  infer_instance

/-- The value of `action` after lines 191-194 of `update`. -/
def Button.actionSingle (b : Button) (newState : Bool) (mills : Nat) : Button_Action :=
  if b.singleFires newState mills then Button_Action.ACTION_NONE
  else b.actionDebounced newState mills

/-- The condition of line 197 of `update`. -/
def Button.longFires (b : Button) (newState : Bool) (mills : Nat) : Prop :=
  b.actionSingle newState mills = Button_Action.ACTION_LONG_PRESS
    ∧ subUL mills (b.pressTime newState mills) ≥ b.longPressTime

instance (b : Button) (newState : Bool) (mills : Nat) :
    Decidable (b.longFires newState mills) := by
  unfold Button.longFires
  infer_instance

/-- The value of `action` after `update`. -/
def Button.actionLong (b : Button) (newState : Bool) (mills : Nat) : Button_Action :=
  if b.longFires newState mills then Button_Action.ACTION_NONE
  else b.actionSingle newState mills

/-- Timestamp of the first tick whose raw level differs from `lvl`, if there is one. -/
def firstDiffTime (lvl : Bool) : List Tick → Option Nat
  | [] => none
  | t :: ts => if t.raw ≠ lvl then some t.now else firstDiffTime lvl ts

/-- No call of `update` along the ticks takes the branch of line 158. -/
def QuietFrom : Button → List Tick → Prop
  | _, [] => True
  | b, t :: ts => ¬ b.accepts t.raw t.now ∧ QuietFrom (b.update t.raw t.now).1 ts

/-- The number of gesture callbacks called since the last press callback (`none` as long as no
press callback was called), after one more call `e`. -/
def cycleStep (m : Option Nat) : Event → Option Nat
  | Event.onPress => some 0
  | Event.onRelease => m
  | _ => m.map (fun k => k + 1)

/-- The count of `cycleStep` after a list of calls. -/
def cycleEnd (m : Option Nat) (l : List Event) : Option Nat :=
  l.foldl cycleStep m

/-- Along the list of calls the count of `cycleStep` never exceeds one. -/
def CycleOK : Option Nat → List Event → Prop
  | _, [] => True
  | m, e :: l => (∀ k ∈ cycleStep m e, k ≤ 1) ∧ CycleOK (cycleStep m e) l

/-- What the object state must satisfy, given the count `m` of `cycleStep` and the time `T` of
the latest call of `update`, for the count to stay at most one. -/
def CycleInv (b : Button) (T : Nat) : Option Nat → Prop
  | none => True
  | some k =>
    k ≤ 1 ∧ b.lastPressTime ≤ T
      ∧ (b.action = Button_Action.ACTION_SINGLE_PRESS → k = 0 ∧ b.state ≠ b.activeState)
      ∧ (b.action = Button_Action.ACTION_LONG_PRESS → k = 0)
      ∧ (b.action = Button_Action.ACTION_NONE → b.state = b.activeState →
          b.lastPressTime + b.longPressTime ≤ T)

/-- The object state with its three timestamps moved forward by `k` on the `unsigned long`
clock (modulo `2 ^ 32`). -/
def Button.shift (b : Button) (k : Nat) : Button :=
  { b with
    lastDebounceTime := (b.lastDebounceTime + k) % ULONG_MOD
    lastPressTime := (b.lastPressTime + k) % ULONG_MOD
    lastReleaseTime := (b.lastReleaseTime + k) % ULONG_MOD }

/-- `Button::isPressed` as a member function call: the value returned and the object state
after the call.  The body is a single `return` and assigns no data member. -/
def Button.isPressedCall (b : Button) : Bool × Button :=
  (b.state == b.activeState, b)

/-- Successive calls of `isPressed()`, `n` of them, with no call of `update` in between: the
values returned, in order, and the object state after the last call. -/
def Button.isPressedCalls (b : Button) : Nat → List Bool × Button
  | 0 => ([], b)
  | n + 1 =>
    (b.isPressedCall.1 :: (b.isPressedCall.2.isPressedCalls n).1,
      (b.isPressedCall.2.isPressedCalls n).2)

/-! ### The operation `tick` as the specification words it

The definitions of this part follow the text of the specification (data model of section 3,
operation `tick(rawLevel, now)` of section 4.1), not the source; they are compared with
`Button.update` below. -/

/-- The states of `pendingAction` in the specification. -/
inductive PendingAction where
  | NONE
  | AWAITING_SINGLE
  | AWAITING_LONG
  | IN_DOUBLE
  deriving DecidableEq, Repr

/-- The entity `ButtonState` of the specification (section 3). -/
structure ButtonState where
  activeLevel : Bool
  debouncedLevel : Bool
  rawLevelLastSeen : Bool
  debounceTimerStart : Nat
  debounceWindowMs : Nat
  doublePressWindowMs : Nat
  longPressThresholdMs : Nat
  lastPressAt : Nat
  lastReleaseAt : Nat
  pendingAction : PendingAction
  deriving DecidableEq, Repr

/-- Step 1 of `tick`, edge detection: if `rawLevel != rawLevelLastSeen`, reset
`debounceTimerStart = now`. -/
def ButtonState.edgeDetection (s : ButtonState) (rawLevel : Bool) (now : Nat) : ButtonState :=
  if rawLevel ≠ s.rawLevelLastSeen then { s with debounceTimerStart := now } else s

/-- Step 2 of `tick`, acceptance: if `now - debounceTimerStart >= debounceWindowMs` and
`rawLevel != debouncedLevel`, the change is accepted, `debouncedLevel = rawLevel`, followed by
the press branch (press callback, `lastPressAt = now`, then double-press callback and
`IN_DOUBLE` if a single press was awaited, `AWAITING_LONG` otherwise) or the release branch
(release callback, `lastReleaseAt = now`, then `NONE` if in a double press, else
`AWAITING_SINGLE` if `lastReleaseAt - lastPressAt < longPressThresholdMs`). -/
def ButtonState.acceptance (s : ButtonState) (rawLevel : Bool) (now : Nat) :
    ButtonState × List Event :=
  if subUL now s.debounceTimerStart ≥ s.debounceWindowMs ∧ rawLevel ≠ s.debouncedLevel then
    let s1 : ButtonState := { s with debouncedLevel := rawLevel }
    if s1.debouncedLevel = s1.activeLevel then
      let s2 : ButtonState := { s1 with lastPressAt := now }
      if s2.pendingAction = PendingAction.AWAITING_SINGLE then
        ({ s2 with pendingAction := PendingAction.IN_DOUBLE },
          [Event.onPress, Event.onDoublePress])
      else
        ({ s2 with pendingAction := PendingAction.AWAITING_LONG }, [Event.onPress])
    else
      let s2 : ButtonState := { s1 with lastReleaseAt := now }
      if s2.pendingAction = PendingAction.IN_DOUBLE then
        ({ s2 with pendingAction := PendingAction.NONE }, [Event.onRelease])
      else if subUL s2.lastReleaseAt s2.lastPressAt < s2.longPressThresholdMs then
        ({ s2 with pendingAction := PendingAction.AWAITING_SINGLE }, [Event.onRelease])
      else
        (s2, [Event.onRelease])
  else
    (s, [])

/-- Step 3 of `tick`, single-press confirmation: if `pendingAction == AWAITING_SINGLE` and
`now - lastReleaseAt > doublePressWindowMs`, invoke the single-press callback and clear
`pendingAction = NONE`. -/
def ButtonState.singlePressConfirmation (s : ButtonState) (now : Nat) :
    ButtonState × List Event :=
  if s.pendingAction = PendingAction.AWAITING_SINGLE
      ∧ subUL now s.lastReleaseAt > s.doublePressWindowMs then
    ({ s with pendingAction := PendingAction.NONE }, [Event.onSinglePress])
  else
    (s, [])

/-- Step 4 of `tick`, long-press confirmation: if `pendingAction == AWAITING_LONG` and
`now - lastPressAt >= longPressThresholdMs`, invoke the long-press callback and clear
`pendingAction = NONE`. -/
def ButtonState.longPressConfirmation (s : ButtonState) (now : Nat) :
    ButtonState × List Event :=
  if s.pendingAction = PendingAction.AWAITING_LONG
      ∧ subUL now s.lastPressAt ≥ s.longPressThresholdMs then
    ({ s with pendingAction := PendingAction.NONE }, [Event.onLongPress])
  else
    (s, [])

/-- The operation `tick(rawLevel, now)` of the specification: steps 1 to 4 in order, then
step 5, `rawLevelLastSeen = rawLevel` unconditionally; the callbacks invoked, in order. -/
def ButtonState.tick (s : ButtonState) (rawLevel : Bool) (now : Nat) :
    ButtonState × List Event :=
  let s1 := s.edgeDetection rawLevel now
  let r2 := s1.acceptance rawLevel now
  let r3 := r2.1.singlePressConfirmation now
  let r4 := r3.1.longPressConfirmation now
  ({ r4.1 with rawLevelLastSeen := rawLevel }, r2.2 ++ r3.2 ++ r4.2)

/-- The `pendingAction` state that an `action` value of the source stands for. -/
def Button_Action.toPendingAction : Button_Action → PendingAction
  | Button_Action.ACTION_SINGLE_PRESS => PendingAction.AWAITING_SINGLE
  | Button_Action.ACTION_DOUBLE_PRESS => PendingAction.IN_DOUBLE
  | Button_Action.ACTION_LONG_PRESS => PendingAction.AWAITING_LONG
  | Button_Action.ACTION_NONE => PendingAction.NONE

/-- The `ButtonState` of the specification that an object state of the source stands for. -/
def Button.toButtonState (b : Button) : ButtonState :=
  { activeLevel := b.activeState
    debouncedLevel := b.state
    rawLevelLastSeen := b.lastState
    debounceTimerStart := b.lastDebounceTime
    debounceWindowMs := b.debounceTime
    doublePressWindowMs := b.doublePressInterval
    longPressThresholdMs := b.longPressTime
    lastPressAt := b.lastPressTime
    lastReleaseAt := b.lastReleaseTime
    pendingAction := b.action.toPendingAction }

/-- The scheduled action agrees with the debounced state: a scheduled long press or a double
press under way only while pressed, a scheduled single press only while released. -/
def Button.ActionConsistent (b : Button) : Prop :=
  ((b.action = Button_Action.ACTION_LONG_PRESS ∨ b.action = Button_Action.ACTION_DOUBLE_PRESS) →
      b.isPressed = true)
    ∧ (b.action = Button_Action.ACTION_SINGLE_PRESS → b.isPressed = false)

/-! ## Arithmetic of `unsigned long` differences -/

theorem subUL_self (a : Nat) : subUL a a = 0 := by
  simp only [subUL, ULONG_MOD]
  omega

theorem subUL_of_le {a b : Nat} (hab : b ≤ a) (ha : a < ULONG_MOD) : subUL a b = a - b := by
  simp only [subUL, ULONG_MOD] at *
  omega

/-! ## `update` in normal form -/

theorem detectEdge_eq (b : Button) (r : Bool) (t : Nat) :
    b.detectEdge r t = { b with lastDebounceTime := b.edgeTime r t } := by
  unfold Button.detectEdge Button.edgeTime
  split_ifs <;> rfl

theorem debounce_fst (b : Button) (r : Bool) (t : Nat) :
    ((b.detectEdge r t).debounce r t).1 =
      { b with
        lastDebounceTime := b.edgeTime r t
        state := if b.accepts r t then r else b.state
        lastPressTime := b.pressTime r t
        lastReleaseTime := b.releaseTime r t
        action := b.actionDebounced r t } := by
  rw [detectEdge_eq]
  unfold Button.debounce Button.actionDebounced Button.pressTime Button.releaseTime
  by_cases hacc : b.accepts r t
  · have hacc2 := hacc
    unfold Button.accepts at hacc2
    by_cases hr : r = b.activeState
    · simp only [Button.pressed, hacc, hacc2, hr]
      split_ifs <;> simp_all
    · simp only [Button.released, hacc, hacc2, hr]
      split_ifs <;> simp_all
  · have hacc2 := hacc
    unfold Button.accepts at hacc2
    simp [hacc, hacc2]

theorem debounce_snd (b : Button) (r : Bool) (t : Nat) :
    ((b.detectEdge r t).debounce r t).2 = b.debounceCalls r t := by
  rw [detectEdge_eq]
  unfold Button.debounce Button.debounceCalls
  by_cases hacc : b.accepts r t
  · have hacc2 := hacc
    unfold Button.accepts at hacc2
    by_cases hr : r = b.activeState
    · simp only [Button.pressed, hacc, hacc2, hr]
      split_ifs <;> simp_all
    · simp only [Button.released, hacc, hacc2, hr]
      split_ifs <;> simp_all
  · have hacc2 := hacc
    unfold Button.accepts at hacc2
    simp [hacc, hacc2]

theorem checkSinglePress_eq (b : Button) (t : Nat) :
    b.checkSinglePress t =
      ({ b with
          action :=
            if b.action = Button_Action.ACTION_SINGLE_PRESS
                ∧ subUL t b.lastReleaseTime > b.doublePressInterval then
              Button_Action.ACTION_NONE
            else b.action },
        if b.action = Button_Action.ACTION_SINGLE_PRESS
            ∧ subUL t b.lastReleaseTime > b.doublePressInterval then
          [Event.onSinglePress]
        else []) := by
  unfold Button.checkSinglePress
  split_ifs <;> rfl

theorem checkLongPress_eq (b : Button) (t : Nat) :
    b.checkLongPress t =
      ({ b with
          action :=
            if b.action = Button_Action.ACTION_LONG_PRESS
                ∧ subUL t b.lastPressTime ≥ b.longPressTime then
              Button_Action.ACTION_NONE
            else b.action },
        if b.action = Button_Action.ACTION_LONG_PRESS
            ∧ subUL t b.lastPressTime ≥ b.longPressTime then
          [Event.onLongPress]
        else []) := by
  unfold Button.checkLongPress
  split_ifs <;> rfl

/-- The normal form of `update`: every data member and the list of calls, written out. -/
theorem update_eq (b : Button) (r : Bool) (t : Nat) :
    b.update r t =
      ({ b with
          lastDebounceTime := b.edgeTime r t
          state := if b.accepts r t then r else b.state
          lastPressTime := b.pressTime r t
          lastReleaseTime := b.releaseTime r t
          action := b.actionLong r t
          lastState := r },
        b.debounceCalls r t ++ (if b.singleFires r t then [Event.onSinglePress] else [])
          ++ (if b.longFires r t then [Event.onLongPress] else [])) := by
  unfold Button.update
  simp only [debounce_fst, debounce_snd, checkSinglePress_eq, checkLongPress_eq]
  rfl

@[simp] theorem update_state (b : Button) (r : Bool) (t : Nat) :
    (b.update r t).1.state = if b.accepts r t then r else b.state := by
  rw [update_eq]

@[simp] theorem update_activeState (b : Button) (r : Bool) (t : Nat) :
    (b.update r t).1.activeState = b.activeState := by
  rw [update_eq]

@[simp] theorem update_lastState (b : Button) (r : Bool) (t : Nat) :
    (b.update r t).1.lastState = r := by
  rw [update_eq]

@[simp] theorem update_lastDebounceTime (b : Button) (r : Bool) (t : Nat) :
    (b.update r t).1.lastDebounceTime = b.edgeTime r t := by
  rw [update_eq]

@[simp] theorem update_debounceTime (b : Button) (r : Bool) (t : Nat) :
    (b.update r t).1.debounceTime = b.debounceTime := by
  rw [update_eq]

@[simp] theorem update_doublePressInterval (b : Button) (r : Bool) (t : Nat) :
    (b.update r t).1.doublePressInterval = b.doublePressInterval := by
  rw [update_eq]

@[simp] theorem update_longPressTime (b : Button) (r : Bool) (t : Nat) :
    (b.update r t).1.longPressTime = b.longPressTime := by
  rw [update_eq]

@[simp] theorem update_lastPressTime (b : Button) (r : Bool) (t : Nat) :
    (b.update r t).1.lastPressTime = b.pressTime r t := by
  rw [update_eq]

@[simp] theorem update_lastReleaseTime (b : Button) (r : Bool) (t : Nat) :
    (b.update r t).1.lastReleaseTime = b.releaseTime r t := by
  rw [update_eq]

theorem update_action (b : Button) (r : Bool) (t : Nat) :
    (b.update r t).1.action = b.actionLong r t := by
  rw [update_eq]

theorem update_calls (b : Button) (r : Bool) (t : Nat) :
    (b.update r t).2 =
      b.debounceCalls r t ++ (if b.singleFires r t then [Event.onSinglePress] else [])
        ++ (if b.longFires r t then [Event.onLongPress] else []) := by
  rw [update_eq]

/-- The press and release calls of one `update`, read off the pressed state before and
after. -/
theorem update_transition (b : Button) (r : Bool) (t : Nat) :
    (b.update r t).2.filter Event.isTransition =
      if b.isPressed = false ∧ (b.update r t).1.isPressed = true then [Event.onPress]
      else if b.isPressed = true ∧ (b.update r t).1.isPressed = false then [Event.onRelease]
      else [] := by
  rw [update_calls]
  simp only [Button.isPressed, update_state, update_activeState, List.filter_append]
  have h2 : (if b.singleFires r t then [Event.onSinglePress] else []).filter Event.isTransition
      = [] := by split_ifs <;> rfl
  have h3 : (if b.longFires r t then [Event.onLongPress] else []).filter Event.isTransition
      = [] := by split_ifs <;> rfl
  rw [h2, h3, List.append_nil, List.append_nil]
  unfold Button.debounceCalls
  by_cases hacc : b.accepts r t
  · have hne : r ≠ b.state := hacc.2
    simp only [hacc, if_true]
    cases r <;> cases hs : b.state <;> cases ha : b.activeState <;>
      simp_all [Event.isTransition] <;> split_ifs <;> rfl
  · simp only [hacc, if_false]
    cases hs : b.state <;> cases ha : b.activeState <;> simp

/-! ## Sequences of calls -/

@[simp] theorem run_nil (b : Button) : run b [] = (b, []) := rfl

theorem run_cons (b : Button) (x : Tick) (xs : List Tick) :
    run b (x :: xs) =
      ((run (b.update x.raw x.now).1 xs).1,
        (b.update x.raw x.now).2 ++ (run (b.update x.raw x.now).1 xs).2) := rfl

theorem run_append (xs ys : List Tick) (b : Button) :
    run b (xs ++ ys) = ((run (run b xs).1 ys).1, (run b xs).2 ++ (run (run b xs).1 ys).2) := by
  induction xs generalizing b with
  | nil => simp
  | cons x xs ih => simp [run_cons, ih, List.append_assoc]

theorem run_transitions_alternate (ticks : List Tick) (b : Button) :
    List.Chain' (fun x y => x ≠ y) ((run b ticks).2.filter Event.isTransition) ∧
      ∀ e ∈ ((run b ticks).2.filter Event.isTransition).head?,
        e = if b.isPressed = true then Event.onRelease else Event.onPress := by
  induction ticks generalizing b with
  | nil => simp
  | cons x xs ih =>
    obtain ⟨ih1, ih2⟩ := ih (b.update x.raw x.now).1
    rw [run_cons]
    simp only [List.filter_append, update_transition]
    by_cases hp : b.isPressed = true <;> by_cases hq : (b.update x.raw x.now).1.isPressed = true
    · simp only [hp, hq, Bool.true_eq_false, false_and, and_false, if_false, List.nil_append,
        if_true] at ih2 ⊢
      exact ⟨ih1, ih2⟩
    · simp only [Bool.not_eq_true] at hq
      simp only [hp, hq, Bool.true_eq_false, false_and, and_self, if_false, if_true,
        Bool.false_eq_true] at ih2 ⊢
      refine ⟨?_, by simp⟩
      rw [List.singleton_append, List.chain'_cons']
      refine ⟨?_, ih1⟩
      intro y hy
      rw [ih2 y hy]
      decide
    · simp only [Bool.not_eq_true] at hp
      simp only [hp, hq, and_self, if_true] at ih2 ⊢
      refine ⟨?_, by simp⟩
      rw [List.singleton_append, List.chain'_cons']
      refine ⟨?_, ih1⟩
      intro y hy
      rw [ih2 y hy]
      decide
    · simp only [Bool.not_eq_true] at hp hq
      simp only [hp, hq, Bool.false_eq_true, and_false, false_and, if_false, List.nil_append]
        at ih2 ⊢
      exact ⟨ih1, ih2⟩

/-- C9. One call of `update` calls the press callback exactly once when `isPressed()` is false
before the call and true after it and not at all otherwise, and the release callback exactly once
when `isPressed()` is true before and false after and not at all otherwise; hence over any
sequence of calls the press and release callbacks strictly alternate. -/
theorem press_release_once_per_transition (b : Button) (newState : Bool) (mills : Nat) :
    ((b.update newState mills).2.count Event.onPress =
        if b.isPressed = false ∧ (b.update newState mills).1.isPressed = true then 1 else 0)
      ∧ ((b.update newState mills).2.count Event.onRelease =
        if b.isPressed = true ∧ (b.update newState mills).1.isPressed = false then 1 else 0)
      ∧ ∀ ticks : List Tick,
          List.Chain' (fun x y => x ≠ y) ((run b ticks).2.filter Event.isTransition) := by
  refine ⟨?_, ?_, fun ticks => (run_transitions_alternate ticks b).1⟩
  · rw [← List.count_filter (show Event.isTransition Event.onPress = true from rfl),
      update_transition]
    by_cases hp : b.isPressed = true <;>
      by_cases hq : (b.update newState mills).1.isPressed = true <;> simp [hp, hq]
  · rw [← List.count_filter (show Event.isTransition Event.onRelease = true from rfl),
      update_transition]
    by_cases hp : b.isPressed = true <;>
      by_cases hq : (b.update newState mills).1.isPressed = true <;> simp [hp, hq]

/-! ## Ticks on which nothing is accepted -/

theorem update_quiet_transition {b : Button} {r : Bool} {t : Nat} (h : ¬ b.accepts r t) :
    (b.update r t).2.filter Event.isTransition = [] := by
  rw [update_transition]
  simp only [Button.isPressed, update_state, update_activeState, h, if_false]
  cases b.state == b.activeState <;> simp

theorem run_quiet (ticks : List Tick) (b : Button) (h : QuietFrom b ticks) :
    (∀ n, (run b (ticks.take n)).1.state = b.state)
      ∧ (run b ticks).2.filter Event.isTransition = [] := by
  induction ticks generalizing b with
  | nil => simp
  | cons x xs ih =>
    obtain ⟨hx, hxs⟩ := h
    obtain ⟨ih1, ih2⟩ := ih _ hxs
    constructor
    · intro n
      cases n with
      | zero => simp
      | succ n =>
        rw [List.take_succ_cons, run_cons]
        simp only [ih1 n, update_state, hx, if_false]
    · rw [run_cons]
      simp only [List.filter_append, update_quiet_transition hx, ih2, List.append_nil]

theorem quiet_after_edge (T0 : Nat) (ticks : List Tick) (b : Button)
    (h0 : T0 ≤ b.lastDebounceTime)
    (hx : ∀ x ∈ ticks,
      b.lastDebounceTime ≤ x.now ∧ x.now < T0 + b.debounceTime ∧ x.now < ULONG_MOD)
    (hmono : ticks.Pairwise (fun x y => x.now ≤ y.now)) : QuietFrom b ticks := by
  induction ticks generalizing b with
  | nil => trivial
  | cons x xs ih =>
    obtain ⟨h1, h2, h3⟩ := hx x (List.mem_cons_self _ _)
    rw [List.pairwise_cons] at hmono
    have hedge : T0 ≤ b.edgeTime x.raw x.now ∧ b.edgeTime x.raw x.now ≤ x.now := by
      unfold Button.edgeTime
      split_ifs <;> omega
    refine ⟨?_, ih _ ?_ ?_ hmono.2⟩
    · intro hacc
      have h4 := hacc.1
      rw [subUL_of_le hedge.2 h3] at h4
      omega
    · rw [update_lastDebounceTime]
      exact hedge.1
    · intro y hy
      obtain ⟨_, h6, h7⟩ := hx y (List.mem_cons_of_mem _ hy)
      have h8 := hmono.1 y hy
      rw [update_lastDebounceTime, update_debounceTime]
      exact ⟨by omega, h6, h7⟩

theorem le_last_of_pairwise {ticks : List Tick} (hmono : ticks.Pairwise (fun x y => x.now ≤ y.now))
    {tl : Tick} (hl : ticks.getLast? = some tl) : ∀ x ∈ ticks, x.now ≤ tl.now := by
  obtain ⟨ys, rfl⟩ := List.getLast?_eq_some_iff.1 hl
  intro x hx
  rw [List.pairwise_append] at hmono
  rcases List.mem_append.1 hx with h | h
  · exact hmono.2.2 x h tl (List.mem_singleton_self _)
  · rw [List.mem_singleton.1 h]

theorem quiet_within_window (ticks : List Tick) (b : Button) (lvl : Bool)
    (hs : b.state = lvl) (hlast : b.lastState = lvl)
    (hmono : ticks.Pairwise (fun x y => x.now ≤ y.now))
    (hwrap : ∀ x ∈ ticks, x.now < ULONG_MOD)
    (hwin : ∀ t0 ∈ firstDiffTime lvl ticks, ∀ x ∈ ticks, x.now < t0 + b.debounceTime) :
    QuietFrom b ticks := by
  induction ticks generalizing b with
  | nil => trivial
  | cons x xs ih =>
    have hm := List.pairwise_cons.1 hmono
    by_cases hr : x.raw = lvl
    · have hna : ¬ b.accepts x.raw x.now := fun hacc => hacc.2 (by rw [hr, hs])
      refine ⟨hna, ih _ ?_ ?_ hm.2 (fun y hy => hwrap y (List.mem_cons_of_mem _ hy)) ?_⟩
      · simp only [update_state, hna, if_false, hs]
      · simp only [update_lastState, hr]
      · intro t0 ht0 y hy
        rw [update_debounceTime]
        refine hwin t0 ?_ y (List.mem_cons_of_mem _ hy)
        simpa [firstDiffTime, hr] using ht0
    · have hfd : x.now ∈ firstDiffTime lvl (x :: xs) := by simp [firstDiffTime, hr]
      have hall := hwin x.now hfd
      have hx0 := hall x (List.mem_cons_self _ _)
      have hna : ¬ b.accepts x.raw x.now := by
        intro hacc
        have h4 := hacc.1
        have he : b.edgeTime x.raw x.now = x.now := by
          unfold Button.edgeTime
          rw [hlast, if_pos hr]
        rw [he, subUL_self] at h4
        omega
      refine ⟨hna, quiet_after_edge x.now xs _ ?_ ?_ hm.2⟩
      · rw [update_lastDebounceTime]
        unfold Button.edgeTime
        rw [hlast, if_pos hr]
      · intro y hy
        rw [update_lastDebounceTime, update_debounceTime]
        have he : b.edgeTime x.raw x.now = x.now := by
          unfold Button.edgeTime
          rw [hlast, if_pos hr]
        rw [he]
        exact ⟨hm.1 y hy, hall y (List.mem_cons_of_mem _ hy),
          hwrap y (List.mem_cons_of_mem _ hy)⟩

/-- C1. Debounce stability: start from any state whose last raw reading equals the debounced
state, and call `update` on ticks with non-decreasing timestamps below `2 ^ 32` such that the
last timestamp minus the timestamp of the first tick whose raw level differs from the debounced
state is less than `debounceTime`.  Then the debounced state is the same after every tick and
neither the press nor the release callback is called, however the raw level flips. -/
theorem debounce_stability (b : Button) (ticks : List Tick)
    (hlast : b.lastState = b.state)
    (hmono : ticks.Pairwise (fun x y => x.now ≤ y.now))
    (hwrap : ∀ x ∈ ticks, x.now < ULONG_MOD)
    (hwin : ∀ t0 ∈ firstDiffTime b.state ticks, ∀ tl ∈ ticks.getLast?,
      tl.now - t0 < b.debounceTime) :
    (∀ n, (run b (ticks.take n)).1.state = b.state)
      ∧ Event.onPress ∉ (run b ticks).2 ∧ Event.onRelease ∉ (run b ticks).2 := by
  have hq : QuietFrom b ticks := by
    refine quiet_within_window ticks b b.state rfl hlast hmono hwrap ?_
    intro t0 ht0 x hx
    cases hl : ticks.getLast? with
    | none =>
      rw [List.getLast?_eq_none_iff] at hl
      rw [hl] at hx
      cases hx
    | some tl =>
      have h1 := hwin t0 ht0 tl hl
      have h2 := le_last_of_pairwise hmono hl x hx
      omega
  obtain ⟨h1, h2⟩ := run_quiet ticks b hq
  refine ⟨h1, ?_, ?_⟩
  · intro hmem
    have : Event.onPress ∈ (run b ticks).2.filter Event.isTransition :=
      List.mem_filter.2 ⟨hmem, rfl⟩
    rw [h2] at this
    cases this
  · intro hmem
    have : Event.onRelease ∈ (run b ticks).2.filter Event.isTransition :=
      List.mem_filter.2 ⟨hmem, rfl⟩
    rw [h2] at this
    cases this

theorem debounce_stability_witness :
    (configured 2 Button_Mode.ACTIVE_HIGH LOW 20 300 600).lastState
        = (configured 2 Button_Mode.ACTIVE_HIGH LOW 20 300 600).state
      ∧ (∀ n, (run (configured 2 Button_Mode.ACTIVE_HIGH LOW 20 300 600)
          (([⟨LOW, 1000⟩, ⟨HIGH, 1005⟩, ⟨LOW, 1010⟩, ⟨HIGH, 1015⟩, ⟨HIGH, 1024⟩] :
            List Tick).take n)).1.state = LOW)
      ∧ Event.onPress ∉ (run (configured 2 Button_Mode.ACTIVE_HIGH LOW 20 300 600)
          [⟨LOW, 1000⟩, ⟨HIGH, 1005⟩, ⟨LOW, 1010⟩, ⟨HIGH, 1015⟩, ⟨HIGH, 1024⟩]).2
      ∧ Event.onRelease ∉ (run (configured 2 Button_Mode.ACTIVE_HIGH LOW 20 300 600)
          [⟨LOW, 1000⟩, ⟨HIGH, 1005⟩, ⟨LOW, 1010⟩, ⟨HIGH, 1015⟩, ⟨HIGH, 1024⟩]).2 :=
  ⟨by decide,
    debounce_stability (configured 2 Button_Mode.ACTIVE_HIGH LOW 20 300 600)
      [⟨LOW, 1000⟩, ⟨HIGH, 1005⟩, ⟨LOW, 1010⟩, ⟨HIGH, 1015⟩, ⟨HIGH, 1024⟩]
      (by decide) (by decide) (by decide) (by decide)⟩

/-! ## A raw level held stable -/

theorem update_accept_transition {b : Button} {r : Bool} {t : Nat} (h : b.accepts r t) :
    (b.update r t).2.filter Event.isTransition
      = [if r = b.activeState then Event.onPress else Event.onRelease] := by
  rw [update_calls]
  simp only [List.filter_append]
  have h2 : (if b.singleFires r t then [Event.onSinglePress] else []).filter Event.isTransition
      = [] := by split_ifs <;> rfl
  have h3 : (if b.longFires r t then [Event.onLongPress] else []).filter Event.isTransition
      = [] := by split_ifs <;> rfl
  rw [h2, h3, List.append_nil, List.append_nil]
  unfold Button.debounceCalls
  simp only [h, if_true]
  split_ifs <;> rfl

theorem quiet_when_equal (post : List Tick) (b : Button) (h : ∀ x ∈ post, x.raw = b.state) :
    QuietFrom b post := by
  induction post generalizing b with
  | nil => trivial
  | cons x xs ih =>
    have hna : ¬ b.accepts x.raw x.now := fun hacc => hacc.2 (h x (List.mem_cons_self _ _))
    refine ⟨hna, ih _ ?_⟩
    intro y hy
    simp only [update_state, hna, if_false]
    exact h y (List.mem_cons_of_mem _ hy)

theorem quiet_while_waiting (pre : List Tick) (b : Button) (r : Bool) (hls : b.lastState = r)
    (hx : ∀ x ∈ pre, x.raw = r ∧ b.lastDebounceTime ≤ x.now ∧ x.now < ULONG_MOD
      ∧ x.now - b.lastDebounceTime < b.debounceTime) :
    QuietFrom b pre ∧ (run b pre).1.lastState = r
      ∧ (run b pre).1.lastDebounceTime = b.lastDebounceTime
      ∧ (run b pre).1.state = b.state
      ∧ (run b pre).1.debounceTime = b.debounceTime
      ∧ (run b pre).1.activeState = b.activeState := by
  induction pre generalizing b with
  | nil => exact ⟨trivial, hls, rfl, rfl, rfl, rfl⟩
  | cons x xs ih =>
    obtain ⟨h1, h2, h3, h4⟩ := hx x (List.mem_cons_self _ _)
    have he : b.edgeTime x.raw x.now = b.lastDebounceTime := by
      unfold Button.edgeTime
      rw [hls, h1]
      simp
    have hna : ¬ b.accepts x.raw x.now := by
      intro hacc
      have h5 := hacc.1
      rw [he, subUL_of_le h2 h3] at h5
      omega
    have hih := ih (b.update x.raw x.now).1 (by rw [update_lastState, h1]) (by
      intro y hy
      rw [update_lastDebounceTime, update_debounceTime, he]
      exact hx y (List.mem_cons_of_mem _ hy))
    rw [update_lastDebounceTime, update_debounceTime, update_activeState, update_state, he,
      if_neg hna] at hih
    rw [run_cons]
    exact ⟨⟨hna, hih.1⟩, hih.2⟩

theorem accept_then_quiet (b : Button) (tk : Tick) (post : List Tick)
    (hacc : b.accepts tk.raw tk.now) (hpost : ∀ x ∈ post, x.raw = tk.raw) :
    (∀ n, (run b (tk :: post.take n)).1.state = tk.raw)
      ∧ (run b (tk :: post)).2.filter Event.isTransition
        = [if tk.raw = b.activeState then Event.onPress else Event.onRelease] := by
  have hst : (b.update tk.raw tk.now).1.state = tk.raw := by
    rw [update_state, if_pos hacc]
  have hq : QuietFrom (b.update tk.raw tk.now).1 post :=
    quiet_when_equal post _ (by rw [hst]; exact hpost)
  obtain ⟨h1, h2⟩ := run_quiet post _ hq
  constructor
  · intro n
    rw [run_cons]
    exact (h1 n).trans hst
  · rw [run_cons]
    simp only [List.filter_append, h2, List.append_nil, update_accept_transition hacc]

/-- C2. Debounce acceptance: start from any state whose last raw reading equals the debounced
state, and call `update` on ticks `pre ++ tk :: post` with non-decreasing timestamps below
`2 ^ 32` that all read the same raw level `r`, different from the debounced state, where `x0` is
the first tick, every tick of `pre` is less than `debounceTime` after `x0` and `tk` is at least
`debounceTime` after `x0`.  Then the debounced state is unchanged after every tick before `tk`,
it is `r` after `tk` and after every later tick, no press or release callback is called before
`tk`, exactly one (press if `r` is the active level, release otherwise) is called by the call at
`tk`, and it is the only one of the whole sequence. -/
theorem debounce_acceptance (b : Button) (r : Bool) (pre post : List Tick) (tk x0 : Tick)
    (hlast : b.lastState = b.state) (hr : r ≠ b.state)
    (hraw : ∀ x ∈ pre ++ tk :: post, x.raw = r)
    (hmono : (pre ++ tk :: post).Pairwise (fun x y => x.now ≤ y.now))
    (hwrap : ∀ x ∈ pre ++ tk :: post, x.now < ULONG_MOD)
    (hx0 : (pre ++ tk :: post).head? = some x0)
    (hpre : ∀ x ∈ pre, x.now - x0.now < b.debounceTime)
    (htk : tk.now - x0.now ≥ b.debounceTime) :
    (∀ n ≤ pre.length, (run b ((pre ++ tk :: post).take n)).1.state = b.state)
      ∧ (∀ n > pre.length, (run b ((pre ++ tk :: post).take n)).1.state = r)
      ∧ (run b pre).2.filter Event.isTransition = []
      ∧ ((run b pre).1.update tk.raw tk.now).2.filter Event.isTransition
        = [if r = b.activeState then Event.onPress else Event.onRelease]
      ∧ (run b (pre ++ tk :: post)).2.filter Event.isTransition
        = [if r = b.activeState then Event.onPress else Event.onRelease] := by
  have htkr : tk.raw = r := hraw tk (by simp)
  -- the ticks before `tk` accept nothing, and `tk` accepts
  have key : QuietFrom b pre ∧ (run b pre).1.accepts tk.raw tk.now
      ∧ (run b pre).1.activeState = b.activeState := by
    cases pre with
    | nil =>
      simp only [List.nil_append, List.head?_cons, Option.some.injEq] at hx0
      subst hx0
      refine ⟨trivial, ⟨?_, by rw [htkr]; exact hr⟩, rfl⟩
      have he : b.edgeTime tk.raw tk.now = tk.now := by
        unfold Button.edgeTime
        rw [hlast, htkr, if_pos hr]
      simp only [run_nil]
      rw [he, subUL_self]
      omega
    | cons p0 pre1 =>
      simp only [List.cons_append, List.head?_cons, Option.some.injEq] at hx0
      subst hx0
      have hp0r : p0.raw = r := hraw p0 (by simp)
      have hm := List.pairwise_cons.1 hmono
      have he : b.edgeTime p0.raw p0.now = p0.now := by
        unfold Button.edgeTime
        rw [hlast, hp0r, if_pos hr]
      have hna : ¬ b.accepts p0.raw p0.now := by
        intro hacc
        have h4 := hacc.1
        have h5 := hpre p0 (List.mem_cons_self _ _)
        rw [he, subUL_self] at h4
        omega
      have hw := quiet_while_waiting pre1 (b.update p0.raw p0.now).1 r
        (by rw [update_lastState, hp0r]) (by
          intro y hy
          rw [update_lastDebounceTime, update_debounceTime, he]
          exact ⟨hraw y (by simp [hy]), hm.1 y (by simp [hy]), hwrap y (by simp [hy]),
            hpre y (List.mem_cons_of_mem _ hy)⟩)
      rw [update_lastDebounceTime, update_debounceTime, update_activeState, update_state, he,
        if_neg hna] at hw
      obtain ⟨hw1, hw2, hw3, hw4, hw5, hw6⟩ := hw
      rw [run_cons]
      refine ⟨⟨hna, hw1⟩, ⟨?_, ?_⟩, hw6⟩
      · have he2 : (run (b.update p0.raw p0.now).1 pre1).1.edgeTime tk.raw tk.now = p0.now := by
          unfold Button.edgeTime
          rw [hw2, hw3, htkr]
          simp
        have h6 : p0.now ≤ tk.now := hm.1 tk (by simp)
        have h7 : tk.now < ULONG_MOD := hwrap tk (by simp)
        show subUL tk.now _ ≥ _
        rw [he2, hw5, subUL_of_le h6 h7]
        exact htk
      · show tk.raw ≠ _
        rw [hw4, htkr]
        exact hr
  obtain ⟨hq, hacc, hact⟩ := key
  obtain ⟨q1, q2⟩ := run_quiet pre b hq
  obtain ⟨a1, a2⟩ := accept_then_quiet (run b pre).1 tk post hacc
    (fun x hx => (hraw x (by simp [hx])).trans htkr.symm)
  rw [hact, htkr] at a2
  refine ⟨?_, ?_, q2, ?_, ?_⟩
  · intro n hn
    rw [List.take_append_of_le_length hn]
    exact q1 n
  · intro n hn
    obtain ⟨m, rfl⟩ : ∃ m, n = pre.length + (m + 1) := ⟨n - pre.length - 1, by omega⟩
    rw [List.take_append, List.take_succ_cons, run_append]
    exact (a1 m).trans htkr
  · rw [update_accept_transition hacc, hact, htkr]
  · rw [run_append]
    simp only [List.filter_append, q2, List.nil_append]
    exact a2

theorem debounce_acceptance_witness :
    (∀ n ≤ 2, (run (configured 2 Button_Mode.ACTIVE_HIGH LOW 20 300 600)
        (([⟨HIGH, 1000⟩, ⟨HIGH, 1019⟩, ⟨HIGH, 1020⟩, ⟨HIGH, 1030⟩] : List Tick).take n)).1.state
          = LOW)
      ∧ (∀ n > 2, (run (configured 2 Button_Mode.ACTIVE_HIGH LOW 20 300 600)
        (([⟨HIGH, 1000⟩, ⟨HIGH, 1019⟩, ⟨HIGH, 1020⟩, ⟨HIGH, 1030⟩] : List Tick).take n)).1.state
          = HIGH)
      ∧ (run (configured 2 Button_Mode.ACTIVE_HIGH LOW 20 300 600)
          [⟨HIGH, 1000⟩, ⟨HIGH, 1019⟩, ⟨HIGH, 1020⟩, ⟨HIGH, 1030⟩]).2.filter Event.isTransition
          = [Event.onPress] :=
  have h := debounce_acceptance (configured 2 Button_Mode.ACTIVE_HIGH LOW 20 300 600) HIGH
    [⟨HIGH, 1000⟩, ⟨HIGH, 1019⟩] [⟨HIGH, 1030⟩] ⟨HIGH, 1020⟩ ⟨HIGH, 1000⟩
    (by decide) (by decide) (by decide) (by decide) (by decide) (by decide) (by decide)
    (by decide)
  ⟨h.1, h.2.1, h.2.2.2.2⟩

/-! ## One call of `update`, case by case -/

theorem bool_eq_of_ne_of_ne {r s a : Bool} (h1 : r ≠ s) (h2 : r ≠ a) : s = a := by
  cases r <;> cases s <;> cases a <;> simp_all

/-- A press accepted while a single press is scheduled. -/
theorem update_press_double {b : Button} {t : Nat} (hacc : b.accepts b.activeState t)
    (ha : b.action = Button_Action.ACTION_SINGLE_PRESS) :
    (b.update b.activeState t).2 = [Event.onPress, Event.onDoublePress]
      ∧ (b.update b.activeState t).1.action = Button_Action.ACTION_DOUBLE_PRESS := by
  simp [update_calls, update_action, Button.debounceCalls, Button.singleFires, Button.longFires,
    Button.actionLong, Button.actionSingle, Button.actionDebounced, hacc, ha]

/-- A press accepted while no single press is scheduled, with a positive long press time. -/
theorem update_press_long {b : Button} {t : Nat} (hacc : b.accepts b.activeState t)
    (ha : b.action ≠ Button_Action.ACTION_SINGLE_PRESS) (hl : 0 < b.longPressTime) :
    (b.update b.activeState t).2 = [Event.onPress]
      ∧ (b.update b.activeState t).1.action = Button_Action.ACTION_LONG_PRESS := by
  have h0 : ¬ (b.longPressTime ≤ subUL t t) := by rw [subUL_self]; omega
  simp [update_calls, update_action, Button.debounceCalls, Button.singleFires, Button.longFires,
    Button.actionLong, Button.actionSingle, Button.actionDebounced, Button.pressTime, hacc, ha,
    h0]

/-- A press accepted while no single press is scheduled, with long press time zero. -/
theorem update_press_long_zero {b : Button} {t : Nat} (hacc : b.accepts b.activeState t)
    (ha : b.action ≠ Button_Action.ACTION_SINGLE_PRESS) (hl : b.longPressTime = 0) :
    (b.update b.activeState t).2 = [Event.onPress, Event.onLongPress]
      ∧ (b.update b.activeState t).1.action = Button_Action.ACTION_NONE := by
  simp [update_calls, update_action, Button.debounceCalls, Button.singleFires, Button.longFires,
    Button.actionLong, Button.actionSingle, Button.actionDebounced, Button.pressTime, hacc, ha,
    hl]

/-- A release accepted during a double press. -/
theorem update_release_double {b : Button} {r : Bool} {t : Nat} (hacc : b.accepts r t)
    (hr : r ≠ b.activeState) (ha : b.action = Button_Action.ACTION_DOUBLE_PRESS) :
    (b.update r t).2 = [Event.onRelease]
      ∧ (b.update r t).1.action = Button_Action.ACTION_NONE := by
  simp [update_calls, update_action, Button.debounceCalls, Button.singleFires, Button.longFires,
    Button.actionLong, Button.actionSingle, Button.actionDebounced, hacc, ha, hr]

/-- A release accepted, outside a double press, less than the long press time after the
press. -/
theorem update_release_short {b : Button} {r : Bool} {t : Nat} (hacc : b.accepts r t)
    (hr : r ≠ b.activeState) (ha : b.action ≠ Button_Action.ACTION_DOUBLE_PRESS)
    (hl : subUL t b.lastPressTime < b.longPressTime) :
    (b.update r t).2 = [Event.onRelease]
      ∧ (b.update r t).1.action = Button_Action.ACTION_SINGLE_PRESS := by
  have h0 : ¬ (b.doublePressInterval < subUL t t) := by rw [subUL_self]; omega
  simp [update_calls, update_action, Button.debounceCalls, Button.singleFires, Button.longFires,
    Button.actionLong, Button.actionSingle, Button.actionDebounced, Button.releaseTime, hacc,
    ha, hr, hl, h0]

/-- A release accepted while the long press is still scheduled, at least the long press time
after the press. -/
theorem update_release_long {b : Button} {r : Bool} {t : Nat} (hacc : b.accepts r t)
    (hr : r ≠ b.activeState) (ha : b.action = Button_Action.ACTION_LONG_PRESS)
    (hl : b.longPressTime ≤ subUL t b.lastPressTime) :
    (b.update r t).2 = [Event.onRelease, Event.onLongPress]
      ∧ (b.update r t).1.action = Button_Action.ACTION_NONE := by
  have h1 : ¬ (subUL t b.lastPressTime < b.longPressTime) := by omega
  simp [update_calls, update_action, Button.debounceCalls, Button.singleFires, Button.longFires,
    Button.actionLong, Button.actionSingle, Button.actionDebounced, Button.pressTime, hacc,
    ha, hr, hl, h1]

/-- A release accepted with no action scheduled, at least the long press time after the
press. -/
theorem update_release_none {b : Button} {r : Bool} {t : Nat} (hacc : b.accepts r t)
    (hr : r ≠ b.activeState) (ha : b.action = Button_Action.ACTION_NONE)
    (hl : b.longPressTime ≤ subUL t b.lastPressTime) :
    (b.update r t).2 = [Event.onRelease]
      ∧ (b.update r t).1.action = Button_Action.ACTION_NONE := by
  have h1 : ¬ (subUL t b.lastPressTime < b.longPressTime) := by omega
  simp [update_calls, update_action, Button.debounceCalls, Button.singleFires, Button.longFires,
    Button.actionLong, Button.actionSingle, Button.actionDebounced, hacc, ha, hr, h1]

/-- A release accepted while a single press is scheduled, at least the long press time after
the press. -/
theorem update_release_single {b : Button} {r : Bool} {t : Nat} (hacc : b.accepts r t)
    (hr : r ≠ b.activeState) (ha : b.action = Button_Action.ACTION_SINGLE_PRESS)
    (hl : b.longPressTime ≤ subUL t b.lastPressTime) :
    (b.update r t).2 = [Event.onRelease]
      ∧ (b.update r t).1.action = Button_Action.ACTION_SINGLE_PRESS := by
  have h0 : ¬ (b.doublePressInterval < subUL t t) := by rw [subUL_self]; omega
  have h1 : ¬ (subUL t b.lastPressTime < b.longPressTime) := by omega
  simp [update_calls, update_action, Button.debounceCalls, Button.singleFires, Button.longFires,
    Button.actionLong, Button.actionSingle, Button.actionDebounced, Button.releaseTime, hacc,
    ha, hr, h1, h0]

/-- Nothing accepted, a single press scheduled and its waiting time over. -/
theorem update_idle_single_fires {b : Button} {r : Bool} {t : Nat} (hacc : ¬ b.accepts r t)
    (ha : b.action = Button_Action.ACTION_SINGLE_PRESS)
    (hd : b.doublePressInterval < subUL t b.lastReleaseTime) :
    (b.update r t).2 = [Event.onSinglePress]
      ∧ (b.update r t).1.action = Button_Action.ACTION_NONE := by
  simp [update_calls, update_action, Button.debounceCalls, Button.singleFires, Button.longFires,
    Button.actionLong, Button.actionSingle, Button.actionDebounced, Button.releaseTime, hacc,
    ha, hd]

/-- Nothing accepted, a single press scheduled and its waiting time not over. -/
theorem update_idle_single_waits {b : Button} {r : Bool} {t : Nat} (hacc : ¬ b.accepts r t)
    (ha : b.action = Button_Action.ACTION_SINGLE_PRESS)
    (hd : ¬ b.doublePressInterval < subUL t b.lastReleaseTime) :
    (b.update r t).2 = []
      ∧ (b.update r t).1.action = Button_Action.ACTION_SINGLE_PRESS := by
  simp [update_calls, update_action, Button.debounceCalls, Button.singleFires, Button.longFires,
    Button.actionLong, Button.actionSingle, Button.actionDebounced, Button.releaseTime, hacc,
    ha, hd]

/-- Nothing accepted, a long press scheduled and its press time reached. -/
theorem update_idle_long_fires {b : Button} {r : Bool} {t : Nat} (hacc : ¬ b.accepts r t)
    (ha : b.action = Button_Action.ACTION_LONG_PRESS)
    (hl : b.longPressTime ≤ subUL t b.lastPressTime) :
    (b.update r t).2 = [Event.onLongPress]
      ∧ (b.update r t).1.action = Button_Action.ACTION_NONE := by
  simp [update_calls, update_action, Button.debounceCalls, Button.singleFires, Button.longFires,
    Button.actionLong, Button.actionSingle, Button.actionDebounced, Button.pressTime, hacc,
    ha, hl]

/-- Nothing accepted, a long press scheduled and its press time not reached. -/
theorem update_idle_long_waits {b : Button} {r : Bool} {t : Nat} (hacc : ¬ b.accepts r t)
    (ha : b.action = Button_Action.ACTION_LONG_PRESS)
    (hl : ¬ b.longPressTime ≤ subUL t b.lastPressTime) :
    (b.update r t).2 = []
      ∧ (b.update r t).1.action = Button_Action.ACTION_LONG_PRESS := by
  simp [update_calls, update_action, Button.debounceCalls, Button.singleFires, Button.longFires,
    Button.actionLong, Button.actionSingle, Button.actionDebounced, Button.pressTime, hacc,
    ha, hl]

/-- Nothing accepted during a double press or with no action scheduled. -/
theorem update_idle_other {b : Button} {r : Bool} {t : Nat} (hacc : ¬ b.accepts r t)
    (ha1 : b.action ≠ Button_Action.ACTION_SINGLE_PRESS)
    (ha2 : b.action ≠ Button_Action.ACTION_LONG_PRESS) :
    (b.update r t).2 = [] ∧ (b.update r t).1.action = b.action := by
  simp [update_calls, update_action, Button.debounceCalls, Button.singleFires, Button.longFires,
    Button.actionLong, Button.actionSingle, Button.actionDebounced, hacc, ha1, ha2]

theorem update_pressTime_accept {b : Button} {t : Nat} (hacc : b.accepts b.activeState t) :
    (b.update b.activeState t).1.lastPressTime = t := by
  simp [Button.pressTime, hacc]

theorem pressTime_other {b : Button} {r : Bool} {t : Nat}
    (h : ¬ (b.accepts r t ∧ r = b.activeState)) :
    b.pressTime r t = b.lastPressTime := by
  simp only [Button.pressTime, h, if_false]

/-! ## At most one gesture per press -/

theorem cycle_step (b : Button) (r : Bool) (t T : Nat) (m : Option Nat)
    (hinv : CycleInv b T m) (hT : T ≤ t) (ht : t < ULONG_MOD) :
    CycleOK m (b.update r t).2
      ∧ CycleInv (b.update r t).1 t (cycleEnd m (b.update r t).2) := by
  by_cases hacc : b.accepts r t
  · by_cases hr : r = b.activeState
    · -- a press is accepted
      subst hr
      by_cases ha : b.action = Button_Action.ACTION_SINGLE_PRESS
      · obtain ⟨hc, hact⟩ := update_press_double hacc ha
        rw [hc]
        simp [CycleOK, cycleStep, cycleEnd, CycleInv, hact, Button.pressTime, hacc]
      · rcases Nat.eq_zero_or_pos b.longPressTime with hl | hl
        · obtain ⟨hc, hact⟩ := update_press_long_zero hacc ha hl
          rw [hc]
          simp [CycleOK, cycleStep, cycleEnd, CycleInv, hact, Button.pressTime, hacc, hl]
        · obtain ⟨hc, hact⟩ := update_press_long hacc ha hl
          rw [hc]
          simp [CycleOK, cycleStep, cycleEnd, CycleInv, hact, Button.pressTime, hacc]
    · -- a release is accepted
      have hst : b.state = b.activeState := bool_eq_of_ne_of_ne hacc.2 hr
      have hpt : b.pressTime r t = b.lastPressTime :=
        pressTime_other (fun h => hr h.2)
      cases m with
      | none =>
        by_cases ha : b.action = Button_Action.ACTION_DOUBLE_PRESS
        · obtain ⟨hc, hact⟩ := update_release_double hacc hr ha
          rw [hc]
          simp [CycleOK, cycleStep, cycleEnd, CycleInv]
        · by_cases hl : subUL t b.lastPressTime < b.longPressTime
          · obtain ⟨hc, hact⟩ := update_release_short hacc hr ha hl
            rw [hc]
            simp [CycleOK, cycleStep, cycleEnd, CycleInv]
          · have hl2 : b.longPressTime ≤ subUL t b.lastPressTime := by omega
            cases hb : b.action with
            | ACTION_DOUBLE_PRESS => exact absurd hb ha
            | ACTION_SINGLE_PRESS =>
              obtain ⟨hc, hact⟩ := update_release_single hacc hr hb hl2
              rw [hc]
              simp [CycleOK, cycleStep, cycleEnd, CycleInv]
            | ACTION_LONG_PRESS =>
              obtain ⟨hc, hact⟩ := update_release_long hacc hr hb hl2
              rw [hc]
              simp [CycleOK, cycleStep, cycleEnd, CycleInv]
            | ACTION_NONE =>
              obtain ⟨hc, hact⟩ := update_release_none hacc hr hb hl2
              rw [hc]
              simp [CycleOK, cycleStep, cycleEnd, CycleInv]
      | some k =>
        obtain ⟨i1, i2, i3, i4, i5⟩ := hinv
        have hsub : subUL t b.lastPressTime = t - b.lastPressTime :=
          subUL_of_le (by omega) ht
        by_cases ha : b.action = Button_Action.ACTION_DOUBLE_PRESS
        · obtain ⟨hc, hact⟩ := update_release_double hacc hr ha
          rw [hc]
          simp [CycleOK, cycleStep, cycleEnd, CycleInv, hact, hpt, hacc, hr]
          omega
        · by_cases hl : subUL t b.lastPressTime < b.longPressTime
          · obtain ⟨hc, hact⟩ := update_release_short hacc hr ha hl
            rw [hc]
            have hk : k = 0 := by
              cases hb : b.action with
              | ACTION_DOUBLE_PRESS => exact absurd hb ha
              | ACTION_SINGLE_PRESS => exact (i3 hb).1
              | ACTION_LONG_PRESS => exact i4 hb
              | ACTION_NONE =>
                have := i5 hb hst
                omega
            simp [CycleOK, cycleStep, cycleEnd, CycleInv, hact, hpt, hacc, hr, hk]
            omega
          · have hl2 : b.longPressTime ≤ subUL t b.lastPressTime := by omega
            cases hb : b.action with
            | ACTION_DOUBLE_PRESS => exact absurd hb ha
            | ACTION_SINGLE_PRESS => exact absurd hst (i3 hb).2
            | ACTION_LONG_PRESS =>
              obtain ⟨hc, hact⟩ := update_release_long hacc hr hb hl2
              rw [hc]
              have hk := i4 hb
              simp [CycleOK, cycleStep, cycleEnd, CycleInv, hact, hpt, hacc, hr, hk]
              omega
            | ACTION_NONE =>
              obtain ⟨hc, hact⟩ := update_release_none hacc hr hb hl2
              rw [hc]
              simp [CycleOK, cycleStep, cycleEnd, CycleInv, hact, hpt, hacc, hr]
              omega
  · -- nothing is accepted
    have hpt : b.pressTime r t = b.lastPressTime :=
      pressTime_other (fun h => hacc h.1)
    cases hb : b.action with
    | ACTION_SINGLE_PRESS =>
      by_cases hd : b.doublePressInterval < subUL t b.lastReleaseTime
      · obtain ⟨hc, hact⟩ := update_idle_single_fires hacc hb hd
        rw [hc]
        cases m with
        | none => simp [CycleOK, cycleStep, cycleEnd, CycleInv]
        | some k =>
          obtain ⟨i1, i2, i3, i4, i5⟩ := hinv
          have hk := (i3 hb).1
          have hns := (i3 hb).2
          simp [CycleOK, cycleStep, cycleEnd, CycleInv, hact, hpt, hacc, hk, hns]
          omega
      · obtain ⟨hc, hact⟩ := update_idle_single_waits hacc hb hd
        rw [hc]
        cases m with
        | none => simp [CycleOK, cycleStep, cycleEnd, CycleInv]
        | some k =>
          obtain ⟨i1, i2, i3, i4, i5⟩ := hinv
          have hk := (i3 hb).1
          have hns := (i3 hb).2
          simp [CycleOK, cycleStep, cycleEnd, CycleInv, hact, hpt, hacc, hk, hns]
          omega
    | ACTION_LONG_PRESS =>
      by_cases hl : b.longPressTime ≤ subUL t b.lastPressTime
      · obtain ⟨hc, hact⟩ := update_idle_long_fires hacc hb hl
        rw [hc]
        cases m with
        | none => simp [CycleOK, cycleStep, cycleEnd, CycleInv]
        | some k =>
          obtain ⟨i1, i2, i3, i4, i5⟩ := hinv
          have hk := i4 hb
          have hsub : subUL t b.lastPressTime = t - b.lastPressTime :=
            subUL_of_le (by omega) ht
          simp [CycleOK, cycleStep, cycleEnd, CycleInv, hact, hpt, hacc, hk]
          omega
      · obtain ⟨hc, hact⟩ := update_idle_long_waits hacc hb hl
        rw [hc]
        cases m with
        | none => simp [CycleOK, cycleStep, cycleEnd, CycleInv]
        | some k =>
          obtain ⟨i1, i2, i3, i4, i5⟩ := hinv
          have hk := i4 hb
          simp [CycleOK, cycleStep, cycleEnd, CycleInv, hact, hpt, hacc, hk]
          omega
    | ACTION_DOUBLE_PRESS =>
      obtain ⟨hc, hact⟩ := update_idle_other hacc (by rw [hb]; decide) (by rw [hb]; decide)
      rw [hc]
      cases m with
      | none => simp [CycleOK, cycleStep, cycleEnd, CycleInv]
      | some k =>
        obtain ⟨i1, i2, i3, i4, i5⟩ := hinv
        simp [CycleOK, cycleStep, cycleEnd, CycleInv, hact, hpt, hacc, hb]
        omega
    | ACTION_NONE =>
      obtain ⟨hc, hact⟩ := update_idle_other hacc (by rw [hb]; decide) (by rw [hb]; decide)
      rw [hc]
      cases m with
      | none => simp [CycleOK, cycleStep, cycleEnd, CycleInv]
      | some k =>
        obtain ⟨i1, i2, i3, i4, i5⟩ := hinv
        have i5b := i5 hb
        simp [CycleOK, cycleStep, cycleEnd, CycleInv, hact, hpt, hacc, hb]
        refine ⟨i1, by omega, ?_⟩
        intro hs
        have := i5b hs
        omega

theorem cycleOK_append (l1 l2 : List Event) (m : Option Nat) :
    CycleOK m (l1 ++ l2) ↔ CycleOK m l1 ∧ CycleOK (cycleEnd m l1) l2 := by
  induction l1 generalizing m with
  | nil => simp [CycleOK, cycleEnd]
  | cons e l ih =>
    have h := ih (cycleStep m e)
    simp only [cycleEnd] at h
    show (_ ∧ CycleOK (cycleStep m e) (l ++ l2)) ↔ _
    rw [h]
    simp only [CycleOK, cycleEnd, List.foldl_cons, and_assoc]

theorem cycle_run (ticks : List Tick) (b : Button) (T : Nat) (m : Option Nat)
    (hinv : CycleInv b T m)
    (hmono : ticks.Pairwise (fun x y => x.now ≤ y.now))
    (hT : ∀ x ∈ ticks, T ≤ x.now ∧ x.now < ULONG_MOD) : CycleOK m (run b ticks).2 := by
  induction ticks generalizing b T m with
  | nil => trivial
  | cons x xs ih =>
    obtain ⟨h1, h2⟩ := hT x (List.mem_cons_self _ _)
    obtain ⟨s1, s2⟩ := cycle_step b x.raw x.now T m hinv h1 h2
    have hm := List.pairwise_cons.1 hmono
    rw [run_cons, cycleOK_append]
    refine ⟨s1, ih _ x.now _ s2 hm.2 ?_⟩
    intro y hy
    exact ⟨hm.1 y hy, (hT y (List.mem_cons_of_mem _ hy)).2⟩

theorem cycleOK_segment (seg rest : List Event) (k : Nat) (hk : k ≤ 1)
    (h : CycleOK (some k) (seg ++ rest)) (hp : Event.onPress ∉ seg) :
    k + (seg.filter Event.isGesture).length ≤ 1 := by
  induction seg generalizing k with
  | nil => simpa using hk
  | cons e l ih =>
    have hne : e ≠ Event.onPress := fun he => hp (by simp [he])
    have hl : Event.onPress ∉ l := fun hm => hp (List.mem_cons_of_mem _ hm)
    obtain ⟨h1, h2⟩ := h
    cases e with
    | onPress => exact absurd rfl hne
    | onRelease =>
      have := ih k hk h2 hl
      simpa [Event.isGesture] using this
    | onSinglePress =>
      have hk1 : k + 1 ≤ 1 := h1 (k + 1) rfl
      have := ih (k + 1) hk1 h2 hl
      simp only [List.filter_cons, Event.isGesture, if_true, List.length_cons]
      omega
    | onDoublePress =>
      have hk1 : k + 1 ≤ 1 := h1 (k + 1) rfl
      have := ih (k + 1) hk1 h2 hl
      simp only [List.filter_cons, Event.isGesture, if_true, List.length_cons]
      omega
    | onLongPress =>
      have hk1 : k + 1 ≤ 1 := h1 (k + 1) rfl
      have := ih (k + 1) hk1 h2 hl
      simp only [List.filter_cons, Event.isGesture, if_true, List.length_cons]
      omega

/-- C3. Mutual exclusivity per cycle: from any state (in particular the initial one, with no
action scheduled), along ticks with non-decreasing timestamps below `2 ^ 32`, between one call of
the press callback (inclusive) and the next (exclusive) at most one of the single-press,
double-press and long-press callbacks is called: whenever the calls of the run are
`a ++ onPress :: seg ++ rest` with no press callback in `seg`, `seg` holds at most one gesture
callback.  In particular no single press is reported for a press that was reported as a double
or long press. -/
theorem gestures_mutually_exclusive (b : Button) (ticks : List Tick)
    (hmono : ticks.Pairwise (fun x y => x.now ≤ y.now))
    (hwrap : ∀ x ∈ ticks, x.now < ULONG_MOD) :
    ∀ a seg rest : List Event, (run b ticks).2 = a ++ Event.onPress :: (seg ++ rest) →
      Event.onPress ∉ seg → (seg.filter Event.isGesture).length ≤ 1 := by
  intro a seg rest htr hseg
  have hok : CycleOK none (run b ticks).2 :=
    cycle_run ticks b 0 none trivial hmono (fun x hx => ⟨Nat.zero_le _, hwrap x hx⟩)
  rw [htr, cycleOK_append] at hok
  have h2 : CycleOK (some 0) (seg ++ rest) := hok.2.2
  have := cycleOK_segment seg rest 0 (by omega) h2 hseg
  omega

theorem gestures_mutually_exclusive_witness :
    (run (configured 2 Button_Mode.ACTIVE_HIGH LOW 20 300 600)
        [⟨HIGH, 0⟩, ⟨HIGH, 20⟩, ⟨LOW, 100⟩, ⟨LOW, 120⟩, ⟨LOW, 421⟩, ⟨HIGH, 500⟩, ⟨HIGH, 520⟩,
          ⟨HIGH, 1200⟩, ⟨LOW, 1300⟩, ⟨LOW, 1320⟩]).2
        = [] ++ Event.onPress :: ([Event.onRelease, Event.onSinglePress]
            ++ [Event.onPress, Event.onLongPress, Event.onRelease])
      ∧ ([Event.onRelease, Event.onSinglePress].filter Event.isGesture).length ≤ 1 :=
  ⟨by decide,
    gestures_mutually_exclusive (configured 2 Button_Mode.ACTIVE_HIGH LOW 20 300 600)
      [⟨HIGH, 0⟩, ⟨HIGH, 20⟩, ⟨LOW, 100⟩, ⟨LOW, 120⟩, ⟨LOW, 421⟩, ⟨HIGH, 500⟩, ⟨HIGH, 520⟩,
        ⟨HIGH, 1200⟩, ⟨LOW, 1300⟩, ⟨LOW, 1320⟩]
      (by decide) (by decide) [] [Event.onRelease, Event.onSinglePress]
      [Event.onPress, Event.onLongPress, Event.onRelease] (by decide) (by decide)⟩

/-! ## Gestures -/

theorem releaseTime_other {b : Button} {r : Bool} {t : Nat}
    (h : ¬ (b.accepts r t ∧ r ≠ b.activeState)) :
    b.releaseTime r t = b.lastReleaseTime := by
  simp only [Button.releaseTime, h, if_false]

theorem mem_onPress_iff (b : Button) (r : Bool) (t : Nat) :
    Event.onPress ∈ (b.update r t).2 ↔ b.accepts r t ∧ r = b.activeState := by
  rw [update_calls]
  by_cases hacc : b.accepts r t <;> by_cases hr : r = b.activeState <;>
    simp [Button.debounceCalls, hacc, hr] <;> split_ifs <;> simp

theorem mem_onRelease_iff (b : Button) (r : Bool) (t : Nat) :
    Event.onRelease ∈ (b.update r t).2 ↔ b.accepts r t ∧ r ≠ b.activeState := by
  rw [update_calls]
  by_cases hacc : b.accepts r t <;> by_cases hr : r = b.activeState <;>
    simp [Button.debounceCalls, hacc, hr] <;> split_ifs <;> simp

/-- With no action scheduled and the raw level equal to the state, nothing happens. -/
theorem idle_run_none (ticks : List Tick) (b : Button)
    (ha : b.action = Button_Action.ACTION_NONE) (hraw : ∀ x ∈ ticks, x.raw = b.state) :
    (run b ticks).2 = [] ∧ (run b ticks).1.action = Button_Action.ACTION_NONE
      ∧ (run b ticks).1.state = b.state
      ∧ (run b ticks).1.activeState = b.activeState
      ∧ (run b ticks).1.lastPressTime = b.lastPressTime
      ∧ (run b ticks).1.longPressTime = b.longPressTime := by
  induction ticks generalizing b with
  | nil => exact ⟨rfl, ha, rfl, rfl, rfl, rfl⟩
  | cons x xs ih =>
    have hna : ¬ b.accepts x.raw x.now := fun hacc => hacc.2 (hraw x (List.mem_cons_self _ _))
    obtain ⟨hc, hact⟩ := update_idle_other hna (by rw [ha]; decide) (by rw [ha]; decide)
    have hst : (b.update x.raw x.now).1.state = b.state := by
      rw [update_state, if_neg hna]
    have hpt : (b.update x.raw x.now).1.lastPressTime = b.lastPressTime := by
      rw [update_lastPressTime, pressTime_other (fun h => hna h.1)]
    have hih := ih (b.update x.raw x.now).1 (hact.trans ha)
      (fun y hy => (hraw y (List.mem_cons_of_mem _ hy)).trans hst.symm)
    rw [hst, hpt, update_activeState, update_longPressTime] at hih
    rw [run_cons]
    exact ⟨by rw [hc, hih.1]; rfl, hih.2⟩

/-- While a single press is scheduled, the button stays released and the waiting time is not
over, nothing happens. -/
theorem idle_run_single_waits (ticks : List Tick) (b : Button)
    (ha : b.action = Button_Action.ACTION_SINGLE_PRESS) (hrel : b.state ≠ b.activeState)
    (hx : ∀ x ∈ ticks, x.raw ≠ b.activeState ∧ b.lastReleaseTime ≤ x.now ∧ x.now < ULONG_MOD
      ∧ x.now - b.lastReleaseTime ≤ b.doublePressInterval) :
    (run b ticks).2 = [] ∧ (run b ticks).1.action = Button_Action.ACTION_SINGLE_PRESS
      ∧ (run b ticks).1.state = b.state ∧ (run b ticks).1.activeState = b.activeState
      ∧ (run b ticks).1.lastReleaseTime = b.lastReleaseTime
      ∧ (run b ticks).1.doublePressInterval = b.doublePressInterval := by
  induction ticks generalizing b with
  | nil => exact ⟨rfl, ha, rfl, rfl, rfl, rfl⟩
  | cons x xs ih =>
    obtain ⟨h1, h2, h3, h4⟩ := hx x (List.mem_cons_self _ _)
    have hrs : x.raw = b.state := bool_eq_of_ne_of_ne (Ne.symm h1) (Ne.symm hrel)
    have hna : ¬ b.accepts x.raw x.now := fun hacc => hacc.2 hrs
    have hd : ¬ b.doublePressInterval < subUL x.now b.lastReleaseTime := by
      rw [subUL_of_le h2 h3]
      omega
    obtain ⟨hc, hact⟩ := update_idle_single_waits hna ha hd
    have hst : (b.update x.raw x.now).1.state = b.state := by
      rw [update_state, if_neg hna]
    have hrt : (b.update x.raw x.now).1.lastReleaseTime = b.lastReleaseTime := by
      rw [update_lastReleaseTime, releaseTime_other (fun h => hna h.1)]
    have hih := ih (b.update x.raw x.now).1 hact (by rw [hst, update_activeState]; exact hrel)
      (by
        intro y hy
        rw [update_activeState, hrt, update_doublePressInterval]
        exact hx y (List.mem_cons_of_mem _ hy))
    rw [hst, update_activeState, hrt, update_doublePressInterval] at hih
    rw [run_cons]
    exact ⟨by rw [hc, hih.1]; rfl, hih.2⟩

/-- C4. Single-press gesture: start from a state in which a single press is scheduled and the
button is released (the state just after an accepted release of a press shorter than
`longPressTime`), with `lastReleaseTime = r`, and call `update` on ticks `pre ++ tk :: post`
that all read the released level, with timestamps from `r` on and below `2 ^ 32`, where every
tick of `pre` has `now - r ≤ doublePressInterval` and `tk` is the first with
`now - r > doublePressInterval`.  Then nothing is called before `tk` (in particular not on a tick
with `now - r = doublePressInterval`), the call at `tk` calls exactly the single-press callback
and leaves no action scheduled, nothing is called after `tk`; so over the whole sequence the
single-press callback is called exactly once and the double-press and long-press callbacks
never. -/
theorem single_press_gesture (b : Button) (pre post : List Tick) (tk : Tick)
    (ha : b.action = Button_Action.ACTION_SINGLE_PRESS) (hrel : b.state ≠ b.activeState)
    (hraw : ∀ x ∈ pre ++ tk :: post, x.raw ≠ b.activeState)
    (hwrap : ∀ x ∈ pre ++ tk :: post, b.lastReleaseTime ≤ x.now ∧ x.now < ULONG_MOD)
    (hpre : ∀ x ∈ pre, x.now - b.lastReleaseTime ≤ b.doublePressInterval)
    (htk : tk.now - b.lastReleaseTime > b.doublePressInterval) :
    (run b pre).2 = []
      ∧ (run b pre).1.action = Button_Action.ACTION_SINGLE_PRESS
      ∧ ((run b pre).1.update tk.raw tk.now).2 = [Event.onSinglePress]
      ∧ ((run b pre).1.update tk.raw tk.now).1.action = Button_Action.ACTION_NONE
      ∧ (run ((run b pre).1.update tk.raw tk.now).1 post).2 = []
      ∧ (run b (pre ++ tk :: post)).1.action = Button_Action.ACTION_NONE
      ∧ (run b (pre ++ tk :: post)).2 = [Event.onSinglePress] := by
  obtain ⟨p1, p2, p3, p4, p5, p6⟩ := idle_run_single_waits pre b ha hrel (by
    intro x hx
    have hm : x ∈ pre ++ tk :: post := List.mem_append_left _ hx
    exact ⟨hraw x hm, (hwrap x hm).1, (hwrap x hm).2, hpre x hx⟩)
  have htkm : tk ∈ pre ++ tk :: post := by simp
  have hrs : tk.raw = (run b pre).1.state := by
    rw [p3]
    exact bool_eq_of_ne_of_ne (Ne.symm (hraw tk htkm)) (Ne.symm hrel)
  have hna : ¬ (run b pre).1.accepts tk.raw tk.now := fun hacc => hacc.2 hrs
  have hd : (run b pre).1.doublePressInterval < subUL tk.now (run b pre).1.lastReleaseTime := by
    rw [p5, p6, subUL_of_le (hwrap tk htkm).1 (hwrap tk htkm).2]
    exact htk
  obtain ⟨hc, hact⟩ := update_idle_single_fires hna p2 hd
  have hst : ((run b pre).1.update tk.raw tk.now).1.state = b.state := by
    rw [update_state, if_neg hna, p3]
  obtain ⟨q1, q2, _⟩ := idle_run_none post ((run b pre).1.update tk.raw tk.now).1 hact (by
    intro y hy
    rw [hst]
    exact bool_eq_of_ne_of_ne (Ne.symm (hraw y (by simp [hy]))) (Ne.symm hrel))
  refine ⟨p1, p2, hc, hact, q1, ?_, ?_⟩
  · rw [run_append, run_cons]
    exact q2
  · rw [run_append, run_cons, p1, hc, q1]
    rfl

theorem single_press_gesture_witness :
    (run (configured 2 Button_Mode.ACTIVE_HIGH LOW 20 300 600)
        [⟨HIGH, 0⟩, ⟨HIGH, 20⟩, ⟨LOW, 100⟩, ⟨LOW, 120⟩]).1.action
        = Button_Action.ACTION_SINGLE_PRESS
      ∧ (run (configured 2 Button_Mode.ACTIVE_HIGH LOW 20 300 600)
        [⟨HIGH, 0⟩, ⟨HIGH, 20⟩, ⟨LOW, 100⟩, ⟨LOW, 120⟩]).1.lastReleaseTime = 120
      ∧ (run (run (configured 2 Button_Mode.ACTIVE_HIGH LOW 20 300 600)
          [⟨HIGH, 0⟩, ⟨HIGH, 20⟩, ⟨LOW, 100⟩, ⟨LOW, 120⟩]).1 [⟨LOW, 200⟩, ⟨LOW, 420⟩]).2 = []
      ∧ ((run (run (configured 2 Button_Mode.ACTIVE_HIGH LOW 20 300 600)
          [⟨HIGH, 0⟩, ⟨HIGH, 20⟩, ⟨LOW, 100⟩, ⟨LOW, 120⟩]).1
          [⟨LOW, 200⟩, ⟨LOW, 420⟩]).1.update LOW 421).2 = [Event.onSinglePress]
      ∧ (run (run (configured 2 Button_Mode.ACTIVE_HIGH LOW 20 300 600)
          [⟨HIGH, 0⟩, ⟨HIGH, 20⟩, ⟨LOW, 100⟩, ⟨LOW, 120⟩]).1
          ([⟨LOW, 200⟩, ⟨LOW, 420⟩] ++ ⟨LOW, 421⟩ :: [⟨LOW, 500⟩, ⟨LOW, 9000⟩])).2
        = [Event.onSinglePress] :=
  have h := single_press_gesture
    (run (configured 2 Button_Mode.ACTIVE_HIGH LOW 20 300 600)
      [⟨HIGH, 0⟩, ⟨HIGH, 20⟩, ⟨LOW, 100⟩, ⟨LOW, 120⟩]).1
    [⟨LOW, 200⟩, ⟨LOW, 420⟩] [⟨LOW, 500⟩, ⟨LOW, 9000⟩] ⟨LOW, 421⟩
    (by decide) (by decide) (by decide) (by decide) (by decide) (by decide)
  ⟨by decide, by decide, h.1, h.2.2.1, h.2.2.2.2.2.2⟩

/-- While a double press is under way and no release is accepted, nothing happens. -/
theorem double_hold (ticks : List Tick) (b : Button)
    (ha : b.action = Button_Action.ACTION_DOUBLE_PRESS) (hs : b.state = b.activeState)
    (hno : Event.onRelease ∉ (run b ticks).2) :
    (run b ticks).2 = [] ∧ (run b ticks).1.action = Button_Action.ACTION_DOUBLE_PRESS
      ∧ (run b ticks).1.state = (run b ticks).1.activeState := by
  induction ticks generalizing b with
  | nil => exact ⟨rfl, ha, hs⟩
  | cons x xs ih =>
    rw [run_cons] at hno ⊢
    have hno1 : Event.onRelease ∉ (b.update x.raw x.now).2 :=
      fun h => hno (List.mem_append_left _ h)
    have hno2 : Event.onRelease ∉ (run (b.update x.raw x.now).1 xs).2 :=
      fun h => hno (List.mem_append_right _ h)
    have hna : ¬ b.accepts x.raw x.now := by
      intro hacc
      refine hno1 ((mem_onRelease_iff b x.raw x.now).2 ⟨hacc, ?_⟩)
      rw [← hs]
      exact hacc.2
    obtain ⟨hc, hact⟩ := update_idle_other hna (by rw [ha]; decide) (by rw [ha]; decide)
    have hst : (b.update x.raw x.now).1.state = (b.update x.raw x.now).1.activeState := by
      rw [update_state, if_neg hna, update_activeState, hs]
    obtain ⟨i1, i2, i3⟩ := ih (b.update x.raw x.now).1 (hact.trans ha) hst hno2
    exact ⟨by rw [hc, i1]; rfl, i2, i3⟩

/-- C5. Double-press gesture: when a call of `update` accepts a press (calls the press callback)
while a single press is scheduled, it calls the press callback and then the double-press
callback and nothing else, and the action becomes `ACTION_DOUBLE_PRESS`.  On the following ticks,
whatever their raw levels and timestamps, as long as no release is accepted nothing is called and
the action stays `ACTION_DOUBLE_PRESS`; and a call that then accepts a release calls the release
callback only and sets the action to `ACTION_NONE` (no single press is scheduled). -/
theorem double_press_gesture (b : Button) (newState : Bool) (mills : Nat)
    (ha : b.action = Button_Action.ACTION_SINGLE_PRESS)
    (hp : Event.onPress ∈ (b.update newState mills).2) :
    (b.update newState mills).2 = [Event.onPress, Event.onDoublePress]
      ∧ (b.update newState mills).1.action = Button_Action.ACTION_DOUBLE_PRESS
      ∧ ∀ ticks : List Tick, Event.onRelease ∉ (run (b.update newState mills).1 ticks).2 →
          (run (b.update newState mills).1 ticks).2 = []
            ∧ (run (b.update newState mills).1 ticks).1.action
              = Button_Action.ACTION_DOUBLE_PRESS
            ∧ ∀ (r : Bool) (t : Nat),
                Event.onRelease ∈ ((run (b.update newState mills).1 ticks).1.update r t).2 →
                  ((run (b.update newState mills).1 ticks).1.update r t).2 = [Event.onRelease]
                    ∧ ((run (b.update newState mills).1 ticks).1.update r t).1.action
                      = Button_Action.ACTION_NONE := by
  obtain ⟨hacc, hr⟩ := (mem_onPress_iff b newState mills).1 hp
  subst hr
  obtain ⟨hc, hact⟩ := update_press_double hacc ha
  refine ⟨hc, hact, ?_⟩
  intro ticks hno
  have hst : (b.update b.activeState mills).1.state
      = (b.update b.activeState mills).1.activeState := by
    rw [update_state, if_pos hacc, update_activeState]
  obtain ⟨d1, d2, _⟩ := double_hold ticks _ hact hst hno
  refine ⟨d1, d2, ?_⟩
  intro r t hrel
  obtain ⟨hacc2, hr2⟩ := (mem_onRelease_iff _ r t).1 hrel
  exact update_release_double hacc2 hr2 d2

theorem double_press_gesture_witness :
    (run (configured 2 Button_Mode.ACTIVE_HIGH LOW 20 300 600)
        [⟨HIGH, 0⟩, ⟨HIGH, 20⟩, ⟨LOW, 100⟩, ⟨LOW, 120⟩, ⟨HIGH, 270⟩]).1.action
        = Button_Action.ACTION_SINGLE_PRESS
      ∧ ((run (configured 2 Button_Mode.ACTIVE_HIGH LOW 20 300 600)
          [⟨HIGH, 0⟩, ⟨HIGH, 20⟩, ⟨LOW, 100⟩, ⟨LOW, 120⟩, ⟨HIGH, 270⟩]).1.update HIGH 290).2
        = [Event.onPress, Event.onDoublePress]
      ∧ (run ((run (configured 2 Button_Mode.ACTIVE_HIGH LOW 20 300 600)
          [⟨HIGH, 0⟩, ⟨HIGH, 20⟩, ⟨LOW, 100⟩, ⟨LOW, 120⟩, ⟨HIGH, 270⟩]).1.update HIGH 290).1
          [⟨HIGH, 1000⟩, ⟨HIGH, 2000⟩, ⟨LOW, 2100⟩]).2 = []
      ∧ ((run ((run (configured 2 Button_Mode.ACTIVE_HIGH LOW 20 300 600)
          [⟨HIGH, 0⟩, ⟨HIGH, 20⟩, ⟨LOW, 100⟩, ⟨LOW, 120⟩, ⟨HIGH, 270⟩]).1.update HIGH 290).1
          [⟨HIGH, 1000⟩, ⟨HIGH, 2000⟩, ⟨LOW, 2100⟩]).1.update LOW 2120).2 = [Event.onRelease]
      ∧ ((run ((run (configured 2 Button_Mode.ACTIVE_HIGH LOW 20 300 600)
          [⟨HIGH, 0⟩, ⟨HIGH, 20⟩, ⟨LOW, 100⟩, ⟨LOW, 120⟩, ⟨HIGH, 270⟩]).1.update HIGH 290).1
          [⟨HIGH, 1000⟩, ⟨HIGH, 2000⟩, ⟨LOW, 2100⟩]).1.update LOW 2120).1.action
        = Button_Action.ACTION_NONE :=
  have h := double_press_gesture
    (run (configured 2 Button_Mode.ACTIVE_HIGH LOW 20 300 600)
      [⟨HIGH, 0⟩, ⟨HIGH, 20⟩, ⟨LOW, 100⟩, ⟨LOW, 120⟩, ⟨HIGH, 270⟩]).1 HIGH 290
    (by decide) (by decide)
  have h2 := h.2.2 [⟨HIGH, 1000⟩, ⟨HIGH, 2000⟩, ⟨LOW, 2100⟩] (by decide)
  have h3 := h2.2.2 LOW 2120 (by decide)
  ⟨by decide, h.1, h2.1, h3.1, h3.2⟩

/-- While a long press is scheduled, the button stays pressed and the press time is not reached,
nothing happens. -/
theorem long_hold_waits (ticks : List Tick) (b : Button)
    (ha : b.action = Button_Action.ACTION_LONG_PRESS) (hs : b.state = b.activeState)
    (hx : ∀ x ∈ ticks, x.raw = b.activeState ∧ b.lastPressTime ≤ x.now ∧ x.now < ULONG_MOD
      ∧ x.now - b.lastPressTime < b.longPressTime) :
    (run b ticks).2 = [] ∧ (run b ticks).1.action = Button_Action.ACTION_LONG_PRESS
      ∧ (run b ticks).1.state = b.state ∧ (run b ticks).1.activeState = b.activeState
      ∧ (run b ticks).1.lastPressTime = b.lastPressTime
      ∧ (run b ticks).1.longPressTime = b.longPressTime := by
  induction ticks generalizing b with
  | nil => exact ⟨rfl, ha, rfl, rfl, rfl, rfl⟩
  | cons x xs ih =>
    obtain ⟨h1, h2, h3, h4⟩ := hx x (List.mem_cons_self _ _)
    have hna : ¬ b.accepts x.raw x.now := fun hacc => hacc.2 (h1.trans hs.symm)
    have hl : ¬ b.longPressTime ≤ subUL x.now b.lastPressTime := by
      rw [subUL_of_le h2 h3]
      omega
    obtain ⟨hc, hact⟩ := update_idle_long_waits hna ha hl
    have hst : (b.update x.raw x.now).1.state = b.state := by
      rw [update_state, if_neg hna]
    have hpt : (b.update x.raw x.now).1.lastPressTime = b.lastPressTime := by
      rw [update_lastPressTime, pressTime_other (fun h => hna h.1)]
    have hih := ih (b.update x.raw x.now).1 hact (by rw [hst, update_activeState]; exact hs)
      (by
        intro y hy
        rw [update_activeState, hpt, update_longPressTime]
        exact hx y (List.mem_cons_of_mem _ hy))
    rw [hst, update_activeState, hpt, update_longPressTime] at hih
    rw [run_cons]
    exact ⟨by rw [hc, hih.1]; rfl, hih.2⟩

/-- With no action scheduled and the button released, nothing happens before the next accepted
press. -/
theorem released_none_run (ticks : List Tick) (b : Button)
    (ha : b.action = Button_Action.ACTION_NONE) (hs : b.state ≠ b.activeState)
    (hno : Event.onPress ∉ (run b ticks).2) :
    (run b ticks).2 = [] ∧ (run b ticks).1.action = Button_Action.ACTION_NONE
      ∧ (run b ticks).1.isPressed = false := by
  induction ticks generalizing b with
  | nil => exact ⟨rfl, ha, by simpa [Button.isPressed] using hs⟩
  | cons x xs ih =>
    rw [run_cons] at hno ⊢
    have hno1 : Event.onPress ∉ (b.update x.raw x.now).2 :=
      fun h => hno (List.mem_append_left _ h)
    have hno2 : Event.onPress ∉ (run (b.update x.raw x.now).1 xs).2 :=
      fun h => hno (List.mem_append_right _ h)
    have hna : ¬ b.accepts x.raw x.now := by
      intro hacc
      refine hno1 ((mem_onPress_iff b x.raw x.now).2 ⟨hacc, ?_⟩)
      exact (bool_eq_of_ne_of_ne (Ne.symm hacc.2) hs)
    obtain ⟨hc, hact⟩ := update_idle_other hna (by rw [ha]; decide) (by rw [ha]; decide)
    have hst : (b.update x.raw x.now).1.state ≠ (b.update x.raw x.now).1.activeState := by
      rw [update_state, if_neg hna, update_activeState]
      exact hs
    obtain ⟨i1, i2, i3⟩ := ih (b.update x.raw x.now).1 (hact.trans ha) hst hno2
    exact ⟨by rw [hc, i1]; rfl, i2, i3⟩

/-- With no action scheduled, the button pressed and the long press time reached, the only thing
that happens before the next accepted press is the release, which schedules nothing. -/
theorem pressed_none_run (ticks : List Tick) (b : Button) (T : Nat)
    (ha : b.action = Button_Action.ACTION_NONE) (hs : b.state = b.activeState)
    (hlp : b.lastPressTime + b.longPressTime ≤ T)
    (hT : ∀ x ∈ ticks, T ≤ x.now ∧ x.now < ULONG_MOD)
    (hno : Event.onPress ∉ (run b ticks).2) :
    (run b ticks).1.action = Button_Action.ACTION_NONE
      ∧ (run b ticks).2
        = if (run b ticks).1.isPressed = true then [] else [Event.onRelease] := by
  induction ticks generalizing b with
  | nil => exact ⟨ha, by simp [Button.isPressed, hs]⟩
  | cons x xs ih =>
    rw [run_cons] at hno ⊢
    have hno2 : Event.onPress ∉ (run (b.update x.raw x.now).1 xs).2 :=
      fun h => hno (List.mem_append_right _ h)
    obtain ⟨h1, h2⟩ := hT x (List.mem_cons_self _ _)
    by_cases hacc : b.accepts x.raw x.now
    · have hr : x.raw ≠ b.activeState := by
        rw [← hs]
        exact hacc.2
      have hl : b.longPressTime ≤ subUL x.now b.lastPressTime := by
        rw [subUL_of_le (by omega) h2]
        omega
      obtain ⟨hc, hact⟩ := update_release_none hacc hr ha hl
      have hst : (b.update x.raw x.now).1.state ≠ (b.update x.raw x.now).1.activeState := by
        rw [update_state, if_pos hacc, update_activeState]
        exact hr
      obtain ⟨i1, i2, i3⟩ := released_none_run xs _ hact hst hno2
      refine ⟨i2, ?_⟩
      simp only [hc, i1, i3, List.append_nil, Bool.false_eq_true, if_false]
    · obtain ⟨hc, hact⟩ := update_idle_other hacc (by rw [ha]; decide) (by rw [ha]; decide)
      have hst : (b.update x.raw x.now).1.state = (b.update x.raw x.now).1.activeState := by
        rw [update_state, if_neg hacc, update_activeState]
        exact hs
      have hpt : (b.update x.raw x.now).1.lastPressTime = b.lastPressTime := by
        rw [update_lastPressTime, pressTime_other (fun h => hacc h.1)]
      obtain ⟨i1, i2⟩ := ih (b.update x.raw x.now).1 (hact.trans ha) hst
        (by rw [hpt, update_longPressTime]; exact hlp)
        (fun y hy => hT y (List.mem_cons_of_mem _ hy)) hno2
      refine ⟨i1, ?_⟩
      rw [hc, List.nil_append]
      exact i2

/-- C6. Long-press gesture: let the call of `update` at tick `x0` accept a press (call the press
callback) while no single press is scheduled, and let `pre ++ tk :: post` be `x0` and the ticks
following it, all reading the active level, with non-decreasing timestamps below `2 ^ 32`, where
every tick of `pre` has `now - x0.now < longPressTime` and `tk` is the first with
`now - x0.now ≥ longPressTime`.  Then the long-press callback is not called before `tk`, it is
called by the call at `tk`, and over the whole sequence exactly the press callback and then the
long-press callback are called, once each, leaving no action scheduled.  On any later ticks (not
before `tk`, below `2 ^ 32`, any raw levels), up to the next accepted press, the action stays
`ACTION_NONE` and the only call is the release callback, called once the release is accepted:
no single-press and no double-press callback. -/
theorem long_press_gesture (b : Button) (pre post : List Tick) (tk x0 : Tick)
    (ha : b.action ≠ Button_Action.ACTION_SINGLE_PRESS)
    (hx0 : (pre ++ tk :: post).head? = some x0)
    (hp : Event.onPress ∈ (b.update x0.raw x0.now).2)
    (hraw : ∀ x ∈ pre ++ tk :: post, x.raw = b.activeState)
    (hmono : (pre ++ tk :: post).Pairwise (fun x y => x.now ≤ y.now))
    (hwrap : ∀ x ∈ pre ++ tk :: post, x.now < ULONG_MOD)
    (hpre : ∀ x ∈ pre, x.now - x0.now < b.longPressTime)
    (htk : tk.now - x0.now ≥ b.longPressTime) :
    Event.onLongPress ∉ (run b pre).2
      ∧ Event.onLongPress ∈ ((run b pre).1.update tk.raw tk.now).2
      ∧ (run b (pre ++ tk :: post)).2 = [Event.onPress, Event.onLongPress]
      ∧ (run b (pre ++ tk :: post)).1.action = Button_Action.ACTION_NONE
      ∧ ∀ rest : List Tick, (∀ x ∈ rest, tk.now ≤ x.now ∧ x.now < ULONG_MOD) →
          Event.onPress ∉ (run (run b (pre ++ tk :: post)).1 rest).2 →
            (run (run b (pre ++ tk :: post)).1 rest).1.action = Button_Action.ACTION_NONE
              ∧ (run (run b (pre ++ tk :: post)).1 rest).2
                = if (run (run b (pre ++ tk :: post)).1 rest).1.isPressed = true then []
                  else [Event.onRelease] := by
  obtain ⟨hacc, hr0⟩ := (mem_onPress_iff b x0.raw x0.now).1 hp
  have htkm : tk ∈ pre ++ tk :: post := by simp
  -- the state after `tk`
  have key : Event.onLongPress ∉ (run b pre).2
      ∧ Event.onLongPress ∈ ((run b pre).1.update tk.raw tk.now).2
      ∧ (run b pre).2 ++ ((run b pre).1.update tk.raw tk.now).2
        = [Event.onPress, Event.onLongPress]
      ∧ ((run b pre).1.update tk.raw tk.now).1.action = Button_Action.ACTION_NONE
      ∧ ((run b pre).1.update tk.raw tk.now).1.state = b.activeState
      ∧ ((run b pre).1.update tk.raw tk.now).1.activeState = b.activeState
      ∧ ((run b pre).1.update tk.raw tk.now).1.lastPressTime = x0.now
      ∧ ((run b pre).1.update tk.raw tk.now).1.longPressTime = b.longPressTime := by
    cases pre with
    | nil =>
      simp only [List.nil_append, List.head?_cons, Option.some.injEq] at hx0
      subst hx0
      have hl : b.longPressTime = 0 := by omega
      rw [hr0] at hacc ⊢
      obtain ⟨hc, hact⟩ := update_press_long_zero hacc ha hl
      simp only [run_nil, hc, List.nil_append]
      refine ⟨by simp, by simp, trivial, hact, ?_, update_activeState _ _ _,
        update_pressTime_accept hacc, update_longPressTime _ _ _⟩
      rw [update_state, if_pos hacc]
    | cons p0 pre1 =>
      simp only [List.cons_append, List.head?_cons, Option.some.injEq] at hx0
      subst hx0
      have hm := List.pairwise_cons.1 hmono
      have hl : 0 < b.longPressTime := by
        have := hpre p0 (List.mem_cons_self _ _)
        omega
      rw [hr0] at hacc
      obtain ⟨hc, hact⟩ := update_press_long hacc ha hl
      have hst : (b.update b.activeState p0.now).1.state = b.activeState := by
        rw [update_state, if_pos hacc]
      have hpt := update_pressTime_accept hacc
      obtain ⟨w1, w2, w3, w4, w5, w6⟩ := long_hold_waits pre1 (b.update b.activeState p0.now).1
        hact (by rw [hst, update_activeState]) (by
          intro y hy
          rw [update_activeState, hpt, update_longPressTime]
          exact ⟨hraw y (by simp [hy]), hm.1 y (by simp [hy]), hwrap y (by simp [hy]),
            hpre y (List.mem_cons_of_mem _ hy)⟩)
      rw [hst] at w3
      rw [update_activeState] at w4
      rw [hpt] at w5
      rw [update_longPressTime] at w6
      have htr : tk.raw = b.activeState := hraw tk htkm
      have hna : ¬ (run (b.update b.activeState p0.now).1 pre1).1.accepts tk.raw tk.now :=
        fun h => h.2 (by rw [w3, htr])
      have hlf : (run (b.update b.activeState p0.now).1 pre1).1.longPressTime
          ≤ subUL tk.now (run (b.update b.activeState p0.now).1 pre1).1.lastPressTime := by
        rw [w5, w6, subUL_of_le (hm.1 tk (by simp)) (hwrap tk htkm)]
        exact htk
      obtain ⟨fc, fact⟩ := update_idle_long_fires hna w2 hlf
      rw [run_cons, hr0, hc, w1, fc]
      refine ⟨by simp, by simp, rfl, fact, ?_, ?_, ?_, ?_⟩
      · rw [update_state, if_neg hna, w3]
      · rw [update_activeState, w4]
      · rw [update_lastPressTime, pressTime_other (fun h => hna h.1), w5]
      · rw [update_longPressTime, w6]
  obtain ⟨k1, k2, k3, k4, k5, k6, k7, k8⟩ := key
  obtain ⟨q1, q2, q3, q4, q5, q6⟩ := idle_run_none post
    ((run b pre).1.update tk.raw tk.now).1 k4 (by
      intro y hy
      rw [k5]
      exact hraw y (by simp [hy]))
  have hfin : (run b (pre ++ tk :: post)).1
      = (run ((run b pre).1.update tk.raw tk.now).1 post).1 := by
    rw [run_append, run_cons]
  have hcalls : (run b (pre ++ tk :: post)).2 = [Event.onPress, Event.onLongPress] := by
    rw [run_append, run_cons, q1, List.append_nil]
    exact k3
  refine ⟨k1, k2, hcalls, by rw [hfin]; exact q2, ?_⟩
  intro rest hrest hno
  rw [hfin] at hno ⊢
  have hx0le : x0.now ≤ tk.now := by
    cases pre with
    | nil =>
      simp only [List.nil_append, List.head?_cons, Option.some.injEq] at hx0
      rw [hx0]
    | cons p0 pre1 =>
      simp only [List.cons_append, List.head?_cons, Option.some.injEq] at hx0
      subst hx0
      exact (List.pairwise_cons.1 hmono).1 tk (by simp)
  exact pressed_none_run rest _ tk.now q2 (by rw [q3, q4, k5, k6])
    (by rw [q5, q6, k7, k8]; omega) hrest hno

theorem long_press_gesture_witness :
    Event.onPress ∈ ((run (configured 2 Button_Mode.ACTIVE_HIGH LOW 20 300 600)
        [⟨HIGH, 0⟩]).1.update HIGH 20).2
      ∧ (run (run (configured 2 Button_Mode.ACTIVE_HIGH LOW 20 300 600) [⟨HIGH, 0⟩]).1
          [⟨HIGH, 20⟩, ⟨HIGH, 300⟩, ⟨HIGH, 619⟩]).2 = [Event.onPress]
      ∧ (run (run (configured 2 Button_Mode.ACTIVE_HIGH LOW 20 300 600) [⟨HIGH, 0⟩]).1
          ([⟨HIGH, 20⟩, ⟨HIGH, 300⟩, ⟨HIGH, 619⟩] ++ ⟨HIGH, 620⟩ :: [⟨HIGH, 700⟩])).2
        = [Event.onPress, Event.onLongPress]
      ∧ (run (run (run (configured 2 Button_Mode.ACTIVE_HIGH LOW 20 300 600) [⟨HIGH, 0⟩]).1
          ([⟨HIGH, 20⟩, ⟨HIGH, 300⟩, ⟨HIGH, 619⟩] ++ ⟨HIGH, 620⟩ :: [⟨HIGH, 700⟩])).1
          [⟨LOW, 800⟩, ⟨LOW, 820⟩, ⟨LOW, 2000⟩]).2 = [Event.onRelease]
      ∧ (run (run (run (configured 2 Button_Mode.ACTIVE_HIGH LOW 20 300 600) [⟨HIGH, 0⟩]).1
          ([⟨HIGH, 20⟩, ⟨HIGH, 300⟩, ⟨HIGH, 619⟩] ++ ⟨HIGH, 620⟩ :: [⟨HIGH, 700⟩])).1
          [⟨LOW, 800⟩, ⟨LOW, 820⟩, ⟨LOW, 2000⟩]).1.action = Button_Action.ACTION_NONE :=
  have h := long_press_gesture
    (run (configured 2 Button_Mode.ACTIVE_HIGH LOW 20 300 600) [⟨HIGH, 0⟩]).1
    [⟨HIGH, 20⟩, ⟨HIGH, 300⟩, ⟨HIGH, 619⟩] [⟨HIGH, 700⟩] ⟨HIGH, 620⟩ ⟨HIGH, 20⟩
    (by decide) (by decide) (by decide) (by decide) (by decide) (by decide) (by decide)
    (by decide)
  have h2 := h.2.2.2.2 [⟨LOW, 800⟩, ⟨LOW, 820⟩, ⟨LOW, 2000⟩] (by decide) (by decide)
  ⟨by decide, by decide, h.2.2.1, h2.2.trans (by decide), h2.1⟩

/-! ## A press longer than the long press time, released before the long press was called -/

/-- C7, counterexample.  Debounce 20 ms, double-press interval 300 ms, long press time
600 ms, active high: the press is accepted at 20 ms and its long press is still scheduled when
the call at 620 ms accepts the release, 600 ms after the press; that call calls the release
callback and then the long-press callback. -/
theorem late_release_still_long_press :
    (run (configured 2 Button_Mode.ACTIVE_HIGH LOW 20 300 600)
        [⟨HIGH, 0⟩, ⟨HIGH, 20⟩, ⟨LOW, 600⟩]).1.action = Button_Action.ACTION_LONG_PRESS
      ∧ Event.onRelease ∈ ((run (configured 2 Button_Mode.ACTIVE_HIGH LOW 20 300 600)
          [⟨HIGH, 0⟩, ⟨HIGH, 20⟩, ⟨LOW, 600⟩]).1.update LOW 620).2
      ∧ subUL 620 (run (configured 2 Button_Mode.ACTIVE_HIGH LOW 20 300 600)
          [⟨HIGH, 0⟩, ⟨HIGH, 20⟩, ⟨LOW, 600⟩]).1.lastPressTime
        ≥ (run (configured 2 Button_Mode.ACTIVE_HIGH LOW 20 300 600)
          [⟨HIGH, 0⟩, ⟨HIGH, 20⟩, ⟨LOW, 600⟩]).1.longPressTime
      ∧ Event.onLongPress ∈ ((run (configured 2 Button_Mode.ACTIVE_HIGH LOW 20 300 600)
          [⟨HIGH, 0⟩, ⟨HIGH, 20⟩, ⟨LOW, 600⟩]).1.update LOW 620).2 := by
  decide

/-- C7, amended.  In any state whose action is `ACTION_LONG_PRESS`, a call of `update` that
accepts a release (calls the release callback) with `mills - lastPressTime ≥ longPressTime` calls
the release callback and then the long-press callback, nothing else (no single press), and
leaves `ACTION_NONE`; after it, on any ticks up to the next accepted press, nothing is called
and the action stays `ACTION_NONE`. -/
theorem too_long_release (b : Button) (newState : Bool) (mills : Nat)
    (ha : b.action = Button_Action.ACTION_LONG_PRESS)
    (hrel : Event.onRelease ∈ (b.update newState mills).2)
    (hlong : subUL mills b.lastPressTime ≥ b.longPressTime) :
    (b.update newState mills).2 = [Event.onRelease, Event.onLongPress]
      ∧ (b.update newState mills).1.action = Button_Action.ACTION_NONE
      ∧ ∀ ticks : List Tick, Event.onPress ∉ (run (b.update newState mills).1 ticks).2 →
          (run (b.update newState mills).1 ticks).2 = []
            ∧ (run (b.update newState mills).1 ticks).1.action = Button_Action.ACTION_NONE := by
  obtain ⟨hacc, hr⟩ := (mem_onRelease_iff b newState mills).1 hrel
  obtain ⟨hc, hact⟩ := update_release_long hacc hr ha hlong
  refine ⟨hc, hact, ?_⟩
  intro ticks hno
  have hst : (b.update newState mills).1.state ≠ (b.update newState mills).1.activeState := by
    rw [update_state, if_pos hacc, update_activeState]
    exact hr
  obtain ⟨r1, r2, _⟩ := released_none_run ticks _ hact hst hno
  exact ⟨r1, r2⟩

theorem too_long_release_witness :
    ((run (configured 2 Button_Mode.ACTIVE_HIGH LOW 20 300 600)
        [⟨HIGH, 0⟩, ⟨HIGH, 20⟩, ⟨LOW, 600⟩]).1.update LOW 620).2
        = [Event.onRelease, Event.onLongPress]
      ∧ ((run (configured 2 Button_Mode.ACTIVE_HIGH LOW 20 300 600)
        [⟨HIGH, 0⟩, ⟨HIGH, 20⟩, ⟨LOW, 600⟩]).1.update LOW 620).1.action
        = Button_Action.ACTION_NONE
      ∧ (run ((run (configured 2 Button_Mode.ACTIVE_HIGH LOW 20 300 600)
          [⟨HIGH, 0⟩, ⟨HIGH, 20⟩, ⟨LOW, 600⟩]).1.update LOW 620).1
          [⟨LOW, 700⟩, ⟨LOW, 5000⟩, ⟨HIGH, 5001⟩]).2 = [] :=
  have h := too_long_release
    (run (configured 2 Button_Mode.ACTIVE_HIGH LOW 20 300 600)
      [⟨HIGH, 0⟩, ⟨HIGH, 20⟩, ⟨LOW, 600⟩]).1 LOW 620 (by decide) (by decide) (by decide)
  ⟨h.1, h.2.1, (h.2.2 [⟨LOW, 700⟩, ⟨LOW, 5000⟩, ⟨HIGH, 5001⟩] (by decide)).1⟩

/-! ## Behaviour at two inputs where `update` departs from its documentation -/

/-- C8, the double-press interval is not a maximum gap.  Debounce 20 ms, double-press interval 300 ms, long press
time 600 ms, active high.  The first press is accepted at 20 ms and its release at 120 ms, which
schedules a single press; the call at 420 ms, exactly 300 ms after the release, does not yet
call the single-press callback; the call at 430 ms accepts the second press, 310 ms after the
release, and calls the double-press callback.  With debounce time 0 the same happens for a press
first read, and accepted, 301 ms after the release. -/
theorem double_press_after_interval :
    (run (configured 2 Button_Mode.ACTIVE_HIGH LOW 20 300 600)
        [⟨HIGH, 0⟩, ⟨HIGH, 20⟩, ⟨LOW, 100⟩, ⟨LOW, 120⟩, ⟨HIGH, 410⟩, ⟨HIGH, 420⟩]).2
        = [Event.onPress, Event.onRelease]
      ∧ (run (configured 2 Button_Mode.ACTIVE_HIGH LOW 20 300 600)
          [⟨HIGH, 0⟩, ⟨HIGH, 20⟩, ⟨LOW, 100⟩, ⟨LOW, 120⟩, ⟨HIGH, 410⟩,
            ⟨HIGH, 420⟩]).1.lastReleaseTime = 120
      ∧ ((run (configured 2 Button_Mode.ACTIVE_HIGH LOW 20 300 600)
          [⟨HIGH, 0⟩, ⟨HIGH, 20⟩, ⟨LOW, 100⟩, ⟨LOW, 120⟩, ⟨HIGH, 410⟩,
            ⟨HIGH, 420⟩]).1.update HIGH 430).2 = [Event.onPress, Event.onDoublePress]
      ∧ subUL 430 120 > (configured 2 Button_Mode.ACTIVE_HIGH LOW 20 300 600).doublePressInterval
      ∧ (run (configured 2 Button_Mode.ACTIVE_HIGH LOW 0 300 600)
          [⟨HIGH, 0⟩, ⟨LOW, 100⟩, ⟨LOW, 400⟩]).2 = [Event.onPress, Event.onRelease]
      ∧ (run (configured 2 Button_Mode.ACTIVE_HIGH LOW 0 300 600)
          [⟨HIGH, 0⟩, ⟨LOW, 100⟩, ⟨LOW, 400⟩]).1.lastReleaseTime = 100
      ∧ ((run (configured 2 Button_Mode.ACTIVE_HIGH LOW 0 300 600)
          [⟨HIGH, 0⟩, ⟨LOW, 100⟩, ⟨LOW, 400⟩]).1.update HIGH 401).2
        = [Event.onPress, Event.onDoublePress]
      ∧ subUL 401 100 > (configured 2 Button_Mode.ACTIVE_HIGH LOW 0 300 600).doublePressInterval := by
  decide

/-- C10, a single press without a press.  Debounce 20 ms, double-press interval 300 ms, long press
time 600 ms, active high, and the pin reads `HIGH` when `begin` runs (the button is held down).
The release is accepted at 120 ms and is measured against `lastPressTime = 0` from the
constructor, so a single press is scheduled, and the call at 421 ms calls the single-press
callback: the press callback was never called. -/
theorem single_press_without_press :
    (run (configured 2 Button_Mode.ACTIVE_HIGH HIGH 20 300 600)
        [⟨LOW, 100⟩, ⟨LOW, 120⟩, ⟨LOW, 420⟩, ⟨LOW, 421⟩]).2
        = [Event.onRelease, Event.onSinglePress]
      ∧ Event.onPress ∉ (run (configured 2 Button_Mode.ACTIVE_HIGH HIGH 20 300 600)
          [⟨LOW, 100⟩, ⟨LOW, 120⟩, ⟨LOW, 420⟩, ⟨LOW, 421⟩]).2 := by
  decide

/-! ## Timestamps enter only through `unsigned long` differences -/

theorem subUL_shift (a b k : Nat) :
    subUL ((a + k) % ULONG_MOD) ((b + k) % ULONG_MOD) = subUL a b := by
  simp only [subUL, ULONG_MOD]
  omega

theorem shift_edgeTime (b : Button) (r : Bool) (t k : Nat) :
    (b.shift k).edgeTime r ((t + k) % ULONG_MOD) = (b.edgeTime r t + k) % ULONG_MOD := by
  unfold Button.edgeTime Button.shift
  dsimp only
  split_ifs <;> rfl

theorem shift_accepts (b : Button) (r : Bool) (t k : Nat) :
    (b.shift k).accepts r ((t + k) % ULONG_MOD) ↔ b.accepts r t := by
  unfold Button.accepts
  rw [shift_edgeTime, subUL_shift]
  rfl

theorem shift_pressTime (b : Button) (r : Bool) (t k : Nat) :
    (b.shift k).pressTime r ((t + k) % ULONG_MOD) = (b.pressTime r t + k) % ULONG_MOD := by
  unfold Button.pressTime
  simp only [shift_accepts]
  show (if _ ∧ r = b.activeState then _ else (b.lastPressTime + k) % ULONG_MOD) = _
  split_ifs <;> rfl

theorem shift_releaseTime (b : Button) (r : Bool) (t k : Nat) :
    (b.shift k).releaseTime r ((t + k) % ULONG_MOD) = (b.releaseTime r t + k) % ULONG_MOD := by
  unfold Button.releaseTime
  simp only [shift_accepts]
  show (if _ ∧ r ≠ b.activeState then _ else (b.lastReleaseTime + k) % ULONG_MOD) = _
  split_ifs <;> rfl

theorem shift_actionDebounced (b : Button) (r : Bool) (t k : Nat) :
    (b.shift k).actionDebounced r ((t + k) % ULONG_MOD) = b.actionDebounced r t := by
  unfold Button.actionDebounced
  simp only [shift_accepts]
  show (if _ then (if r = b.activeState then (if b.action = _ then _ else _)
    else (if b.action = _ then _
      else if subUL ((t + k) % ULONG_MOD) ((b.lastPressTime + k) % ULONG_MOD) < b.longPressTime
        then _ else b.action)) else b.action) = _
  rw [subUL_shift]

theorem shift_debounceCalls (b : Button) (r : Bool) (t k : Nat) :
    (b.shift k).debounceCalls r ((t + k) % ULONG_MOD) = b.debounceCalls r t := by
  unfold Button.debounceCalls
  simp only [shift_accepts]
  rfl

theorem shift_singleFires (b : Button) (r : Bool) (t k : Nat) :
    (b.shift k).singleFires r ((t + k) % ULONG_MOD) ↔ b.singleFires r t := by
  unfold Button.singleFires
  rw [shift_actionDebounced, shift_releaseTime, subUL_shift]
  rfl

theorem shift_actionSingle (b : Button) (r : Bool) (t k : Nat) :
    (b.shift k).actionSingle r ((t + k) % ULONG_MOD) = b.actionSingle r t := by
  unfold Button.actionSingle
  simp only [shift_singleFires, shift_actionDebounced]

theorem shift_longFires (b : Button) (r : Bool) (t k : Nat) :
    (b.shift k).longFires r ((t + k) % ULONG_MOD) ↔ b.longFires r t := by
  unfold Button.longFires
  rw [shift_actionSingle, shift_pressTime, subUL_shift]
  rfl

theorem shift_actionLong (b : Button) (r : Bool) (t k : Nat) :
    (b.shift k).actionLong r ((t + k) % ULONG_MOD) = b.actionLong r t := by
  unfold Button.actionLong
  simp only [shift_longFires, shift_actionSingle]

/-- C11. Time arithmetic is wraparound-safe: `update` depends on timestamps only through
`unsigned long` differences.  For every state `b`, raw level, time `mills` and offset `k`, calling
`update` on `b` with `lastDebounceTime`, `lastPressTime` and `lastReleaseTime` each moved forward
by `k` modulo `2 ^ 32`, at time `mills + k` modulo `2 ^ 32`, makes the same calls in the same
order as the call on `b` at `mills`, and gives the state of that call with its three timestamps
moved forward by `k`. -/
theorem update_shift (b : Button) (newState : Bool) (mills k : Nat) :
    (b.shift k).update newState ((mills + k) % ULONG_MOD)
      = ((b.update newState mills).1.shift k, (b.update newState mills).2) := by
  rw [update_eq, update_eq]
  simp only [shift_edgeTime, shift_accepts, shift_pressTime, shift_releaseTime,
    shift_actionLong, shift_debounceCalls, shift_singleFires, shift_longFires]
  rfl

/-! ## Durations set to zero -/

/-- C12. Zero debounce time: with `debounceTime = 0`, for every state, raw level and time, the
debounced state after `update` is the raw level read by that call; a raw level that differs from
the state is accepted by the very call that first reads it, with its press callback (if it is the
active level) or release callback (otherwise), and a raw level equal to the state calls
neither. -/
theorem zero_debounce_immediate (b : Button) (newState : Bool) (mills : Nat)
    (hD : b.debounceTime = 0) :
    (b.update newState mills).1.state = newState
      ∧ (b.update newState mills).2.filter Event.isTransition
        = if newState = b.state then []
          else [if newState = b.activeState then Event.onPress else Event.onRelease] := by
  by_cases hs : newState = b.state
  · have hna : ¬ b.accepts newState mills := fun h => h.2 hs
    rw [update_state, if_neg hna, update_quiet_transition hna, if_pos hs]
    exact ⟨hs.symm, rfl⟩
  · have hacc : b.accepts newState mills := ⟨by rw [hD]; exact Nat.zero_le _, hs⟩
    rw [update_state, if_pos hacc, update_accept_transition hacc, if_neg hs]
    exact ⟨rfl, rfl⟩

theorem zero_debounce_immediate_witness :
    (configured 2 Button_Mode.ACTIVE_HIGH LOW 0 300 600).debounceTime = 0
      ∧ ((configured 2 Button_Mode.ACTIVE_HIGH LOW 0 300 600).update HIGH 5).1.state = HIGH
      ∧ ((configured 2 Button_Mode.ACTIVE_HIGH LOW 0 300 600).update HIGH 5).2.filter
          Event.isTransition = [Event.onPress] :=
  have h := zero_debounce_immediate (configured 2 Button_Mode.ACTIVE_HIGH LOW 0 300 600) HIGH 5
    (by decide)
  ⟨by decide, h.1, h.2.trans (by decide)⟩

/-- With long press time zero and no action scheduled, one call of `update` leaves no action
scheduled, and its calls are the press callback followed by the long-press callback, or the
release callback alone, or nothing. -/
theorem zero_long_step (b : Button) (r : Bool) (t : Nat)
    (ha : b.action = Button_Action.ACTION_NONE) (hl : b.longPressTime = 0) :
    (b.update r t).1.action = Button_Action.ACTION_NONE
      ∧ ((b.update r t).2 = [Event.onPress, Event.onLongPress]
        ∨ (b.update r t).2 = [Event.onRelease] ∨ (b.update r t).2 = []) := by
  by_cases hacc : b.accepts r t
  · by_cases hr : r = b.activeState
    · subst hr
      obtain ⟨hc, hact⟩ := update_press_long_zero hacc (by rw [ha]; decide) hl
      exact ⟨hact, Or.inl hc⟩
    · obtain ⟨hc, hact⟩ := update_release_none hacc hr ha (by rw [hl]; exact Nat.zero_le _)
      exact ⟨hact, Or.inr (Or.inl hc)⟩
  · obtain ⟨hc, hact⟩ := update_idle_other hacc (by rw [ha]; decide) (by rw [ha]; decide)
    exact ⟨hact.trans ha, Or.inr (Or.inr hc)⟩

theorem zero_long_run (ticks : List Tick) (b : Button)
    (ha : b.action = Button_Action.ACTION_NONE) (hl : b.longPressTime = 0) :
    (run b ticks).1.action = Button_Action.ACTION_NONE
      ∧ (run b ticks).1.longPressTime = 0
      ∧ (run b ticks).2.count Event.onLongPress = (run b ticks).2.count Event.onPress := by
  induction ticks generalizing b with
  | nil => exact ⟨ha, hl, rfl⟩
  | cons x xs ih =>
    obtain ⟨s1, s2⟩ := zero_long_step b x.raw x.now ha hl
    obtain ⟨i1, i2, i3⟩ := ih (b.update x.raw x.now).1 s1 (by rw [update_longPressTime, hl])
    rw [run_cons]
    refine ⟨i1, i2, ?_⟩
    simp only [List.count_append, i3]
    rcases s2 with h | h | h <;> rw [h] <;> simp

/-- C13. Zero long press time: start from a state with no action scheduled (as the initial state
is) and `longPressTime = 0`.  In every state reached by any ticks no action is scheduled, and a
call of `update` that accepts a press (calls the press callback) calls the press callback and
then the long-press callback, on that same call, and leaves `ACTION_NONE`; a call that accepts
no press does not call the long-press callback.  So the long-press callback is called exactly
once for each accepted press. -/
theorem zero_long_press_time (b : Button) (ticks : List Tick)
    (ha : b.action = Button_Action.ACTION_NONE) (hl : b.longPressTime = 0) :
    (run b ticks).1.action = Button_Action.ACTION_NONE
      ∧ (∀ (r : Bool) (t : Nat), Event.onPress ∈ ((run b ticks).1.update r t).2 →
          ((run b ticks).1.update r t).2 = [Event.onPress, Event.onLongPress]
            ∧ ((run b ticks).1.update r t).1.action = Button_Action.ACTION_NONE)
      ∧ (∀ (r : Bool) (t : Nat), Event.onPress ∉ ((run b ticks).1.update r t).2 →
          Event.onLongPress ∉ ((run b ticks).1.update r t).2)
      ∧ (run b ticks).2.count Event.onLongPress = (run b ticks).2.count Event.onPress := by
  obtain ⟨r1, r2, r3⟩ := zero_long_run ticks b ha hl
  refine ⟨r1, ?_, ?_, r3⟩
  · intro r t hp
    obtain ⟨s1, s2⟩ := zero_long_step (run b ticks).1 r t r1 r2
    refine ⟨?_, s1⟩
    rcases s2 with h | h | h
    · exact h
    · rw [h] at hp
      simp at hp
    · rw [h] at hp
      simp at hp
  · intro r t hp hlp
    obtain ⟨_, s2⟩ := zero_long_step (run b ticks).1 r t r1 r2
    rcases s2 with h | h | h
    · exact hp (by rw [h]; simp)
    · rw [h] at hlp
      simp at hlp
    · rw [h] at hlp
      simp at hlp

theorem zero_long_press_time_witness :
    (configured 2 Button_Mode.ACTIVE_HIGH LOW 20 300 0).action = Button_Action.ACTION_NONE
      ∧ (configured 2 Button_Mode.ACTIVE_HIGH LOW 20 300 0).longPressTime = 0
      ∧ ((run (configured 2 Button_Mode.ACTIVE_HIGH LOW 20 300 0)
          [⟨HIGH, 0⟩, ⟨HIGH, 20⟩, ⟨LOW, 100⟩, ⟨LOW, 120⟩, ⟨HIGH, 200⟩]).1.update HIGH 220).2
        = [Event.onPress, Event.onLongPress]
      ∧ (run (configured 2 Button_Mode.ACTIVE_HIGH LOW 20 300 0)
          [⟨HIGH, 0⟩, ⟨HIGH, 20⟩, ⟨LOW, 100⟩, ⟨LOW, 120⟩, ⟨HIGH, 200⟩]).2.count
            Event.onLongPress = 1 :=
  have h := zero_long_press_time (configured 2 Button_Mode.ACTIVE_HIGH LOW 20 300 0)
    [⟨HIGH, 0⟩, ⟨HIGH, 20⟩, ⟨LOW, 100⟩, ⟨LOW, 120⟩, ⟨HIGH, 200⟩] (by decide) (by decide)
  ⟨by decide, by decide, (h.2.1 HIGH 220 (by decide)).1, h.2.2.2.trans (by decide)⟩

/-! ## `isPressed` -/

theorem isPressedCalls_spec (n : Nat) (b : Button) :
    (b.isPressedCalls n).2 = b ∧ (b.isPressedCalls n).1 = List.replicate n b.isPressed := by
  induction n with
  | zero => exact ⟨rfl, rfl⟩
  | succ n ih =>
    obtain ⟨h1, h2⟩ := ih
    refine ⟨h1, ?_⟩
    show b.isPressed :: (b.isPressedCalls n).1 = _
    rw [h2]
    rfl

/-- C14. `isPressed()` returns true exactly when `state == activeState` and changes no data
member: the object state after the call is the state before it, so any number of calls with no
call of `update` in between return the same value and leave the state as it was. -/
theorem isPressed_pure (b : Button) (n : Nat) :
    (b.isPressedCall.1 = true ↔ b.state = b.activeState)
      ∧ b.isPressedCall.2 = b
      ∧ b.isPressedCall.1 = b.isPressed
      ∧ (b.isPressedCalls n).2 = b
      ∧ (b.isPressedCalls n).1.length = n
      ∧ ∀ v ∈ (b.isPressedCalls n).1, v = b.isPressedCall.1 := by
  obtain ⟨h1, h2⟩ := isPressedCalls_spec n b
  refine ⟨by simp [Button.isPressedCall], rfl, rfl, h1, by rw [h2, List.length_replicate], ?_⟩
  intro v hv
  rw [h2] at hv
  exact (List.eq_of_mem_replicate hv)

/-! ## `update` against the `tick` of the specification -/

theorem toPendingAction_eq_single (a : Button_Action) :
    a.toPendingAction = PendingAction.AWAITING_SINGLE ↔ a = Button_Action.ACTION_SINGLE_PRESS := by
  cases a <;> decide

theorem toPendingAction_eq_double (a : Button_Action) :
    a.toPendingAction = PendingAction.IN_DOUBLE ↔ a = Button_Action.ACTION_DOUBLE_PRESS := by
  cases a <;> decide

theorem toPendingAction_eq_long (a : Button_Action) :
    a.toPendingAction = PendingAction.AWAITING_LONG ↔ a = Button_Action.ACTION_LONG_PRESS := by
  cases a <;> decide

theorem detectEdge_refines (b : Button) (r : Bool) (t : Nat) :
    b.toButtonState.edgeDetection r t = (b.detectEdge r t).toButtonState := by
  unfold ButtonState.edgeDetection Button.detectEdge
  by_cases h : r ≠ b.lastState
  · rw [if_pos h, if_pos (show r ≠ b.toButtonState.rawLevelLastSeen from h)]
    rfl
  · rw [if_neg h, if_neg (show ¬ r ≠ b.toButtonState.rawLevelLastSeen from h)]

theorem debounce_refines (b : Button) (r : Bool) (t : Nat) :
    b.toButtonState.acceptance r t = ((b.debounce r t).1.toButtonState, (b.debounce r t).2) := by
  unfold ButtonState.acceptance Button.debounce
  by_cases hc : subUL t b.lastDebounceTime ≥ b.debounceTime ∧ r ≠ b.state
  · rw [if_pos hc, if_pos (show subUL t b.toButtonState.debounceTimerStart
      ≥ b.toButtonState.debounceWindowMs ∧ r ≠ b.toButtonState.debouncedLevel from hc)]
    by_cases hr : r = b.activeState
    · simp only [Button.toButtonState, Button.pressed, hr, if_true, toPendingAction_eq_single]
      split_ifs <;> rfl
    · simp only [Button.toButtonState, Button.released, hr, if_false,
        toPendingAction_eq_double]
      split_ifs <;> rfl
  · rw [if_neg hc, if_neg (show ¬ (subUL t b.toButtonState.debounceTimerStart
      ≥ b.toButtonState.debounceWindowMs ∧ r ≠ b.toButtonState.debouncedLevel) from hc)]

theorem checkSinglePress_refines (b : Button) (t : Nat) :
    b.toButtonState.singlePressConfirmation t
      = ((b.checkSinglePress t).1.toButtonState, (b.checkSinglePress t).2) := by
  unfold ButtonState.singlePressConfirmation Button.checkSinglePress
  simp only [Button.toButtonState, toPendingAction_eq_single]
  split_ifs <;> rfl

theorem checkLongPress_refines (b : Button) (t : Nat) :
    b.toButtonState.longPressConfirmation t
      = ((b.checkLongPress t).1.toButtonState, (b.checkLongPress t).2) := by
  unfold ButtonState.longPressConfirmation Button.checkLongPress
  simp only [Button.toButtonState, toPendingAction_eq_long]
  split_ifs <;> rfl

/-- C15. `Button::update` refines the five-step `tick(rawLevel, now)` of the specification: for
every object state and every input, running steps 1 to 5 of the specification on the
`ButtonState` the object stands for gives the `ButtonState` that the object state after `update`
stands for (same `debounceTimerStart`, `debouncedLevel`, `lastPressAt`, `lastReleaseAt`,
`pendingAction` and `rawLevelLastSeen`, configuration untouched) and the same callbacks in the
same order. -/
theorem update_refines_tick (b : Button) (newState : Bool) (mills : Nat) :
    b.toButtonState.tick newState mills
      = ((b.update newState mills).1.toButtonState, (b.update newState mills).2) := by
  unfold ButtonState.tick Button.update
  simp only [detectEdge_refines, debounce_refines, checkSinglePress_refines,
    checkLongPress_refines]
  rfl

/-! ## What one call of `update` can change and call -/

theorem update_slots (b : Button) (r : Bool) (t : Nat) :
    (b.update r t).1.pin = b.pin
      ∧ (b.update r t).1.onPressFunc = b.onPressFunc
      ∧ (b.update r t).1.onReleaseFunc = b.onReleaseFunc
      ∧ (b.update r t).1.onSinglePressFunc = b.onSinglePressFunc
      ∧ (b.update r t).1.onDoublePressFunc = b.onDoublePressFunc
      ∧ (b.update r t).1.onLongPressFunc = b.onLongPressFunc := by
  rw [update_eq]
  exact ⟨rfl, rfl, rfl, rfl, rfl, rfl⟩

/-- C16. Frame of `update`: for every state and input, `update` leaves `activeState`,
`debounceTime`, `doublePressInterval`, `longPressTime` and the five callback slots unchanged;
`lastPressTime` becomes `mills` on a call that accepts a press and is unchanged on any other
call, `lastReleaseTime` becomes `mills` on a call that accepts a release and is unchanged on any
other call; and on a call that accepts neither, `state`, `lastPressTime` and `lastReleaseTime`
are all unchanged. -/
theorem update_frame (b : Button) (newState : Bool) (mills : Nat) :
    (b.update newState mills).1.activeState = b.activeState
      ∧ (b.update newState mills).1.debounceTime = b.debounceTime
      ∧ (b.update newState mills).1.doublePressInterval = b.doublePressInterval
      ∧ (b.update newState mills).1.longPressTime = b.longPressTime
      ∧ (b.update newState mills).1.onPressFunc = b.onPressFunc
      ∧ (b.update newState mills).1.onReleaseFunc = b.onReleaseFunc
      ∧ (b.update newState mills).1.onSinglePressFunc = b.onSinglePressFunc
      ∧ (b.update newState mills).1.onDoublePressFunc = b.onDoublePressFunc
      ∧ (b.update newState mills).1.onLongPressFunc = b.onLongPressFunc
      ∧ (Event.onPress ∈ (b.update newState mills).2 →
          (b.update newState mills).1.lastPressTime = mills)
      ∧ (Event.onPress ∉ (b.update newState mills).2 →
          (b.update newState mills).1.lastPressTime = b.lastPressTime)
      ∧ (Event.onRelease ∈ (b.update newState mills).2 →
          (b.update newState mills).1.lastReleaseTime = mills)
      ∧ (Event.onRelease ∉ (b.update newState mills).2 →
          (b.update newState mills).1.lastReleaseTime = b.lastReleaseTime)
      ∧ (Event.onPress ∉ (b.update newState mills).2 →
          Event.onRelease ∉ (b.update newState mills).2 →
            (b.update newState mills).1.state = b.state
              ∧ (b.update newState mills).1.lastPressTime = b.lastPressTime
              ∧ (b.update newState mills).1.lastReleaseTime = b.lastReleaseTime) := by
  obtain ⟨_, c1, c2, c3, c4, c5⟩ := update_slots b newState mills
  have hpin : Event.onPress ∈ (b.update newState mills).2 →
      (b.update newState mills).1.lastPressTime = mills := by
    intro h
    rw [update_lastPressTime, Button.pressTime, if_pos ((mem_onPress_iff _ _ _).1 h)]
  have hpout : Event.onPress ∉ (b.update newState mills).2 →
      (b.update newState mills).1.lastPressTime = b.lastPressTime := by
    intro h
    rw [update_lastPressTime, pressTime_other (fun h2 => h ((mem_onPress_iff _ _ _).2 h2))]
  have hrin : Event.onRelease ∈ (b.update newState mills).2 →
      (b.update newState mills).1.lastReleaseTime = mills := by
    intro h
    rw [update_lastReleaseTime, Button.releaseTime, if_pos ((mem_onRelease_iff _ _ _).1 h)]
  have hrout : Event.onRelease ∉ (b.update newState mills).2 →
      (b.update newState mills).1.lastReleaseTime = b.lastReleaseTime := by
    intro h
    rw [update_lastReleaseTime,
      releaseTime_other (fun h2 => h ((mem_onRelease_iff _ _ _).2 h2))]
  refine ⟨update_activeState _ _ _, update_debounceTime _ _ _, update_doublePressInterval _ _ _,
    update_longPressTime _ _ _, c1, c2, c3, c4, c5, hpin, hpout, hrin, hrout, ?_⟩
  intro hp hr
  refine ⟨?_, hpout hp, hrout hr⟩
  have hna : ¬ b.accepts newState mills := by
    intro hacc
    by_cases he : newState = b.activeState
    · exact hp ((mem_onPress_iff _ _ _).2 ⟨hacc, he⟩)
    · exact hr ((mem_onRelease_iff _ _ _).2 ⟨hacc, he⟩)
  rw [update_state, if_neg hna]

theorem update_frame_witness :
    ((run ((configured 2 Button_Mode.ACTIVE_HIGH LOW 20 300 600).setOnPressFunc
        (Callback.user 7)) [⟨HIGH, 0⟩]).1.update HIGH 20).1.onPressFunc = Callback.user 7
      ∧ ((run ((configured 2 Button_Mode.ACTIVE_HIGH LOW 20 300 600).setOnPressFunc
        (Callback.user 7)) [⟨HIGH, 0⟩]).1.update HIGH 20).1.lastPressTime = 20
      ∧ ((run ((configured 2 Button_Mode.ACTIVE_HIGH LOW 20 300 600).setOnPressFunc
        (Callback.user 7)) [⟨HIGH, 0⟩]).1.update HIGH 20).1.lastReleaseTime = 0 :=
  have h := update_frame
    (run ((configured 2 Button_Mode.ACTIVE_HIGH LOW 20 300 600).setOnPressFunc
      (Callback.user 7)) [⟨HIGH, 0⟩]).1 HIGH 20
  ⟨h.2.2.2.2.1.trans (by decide), h.2.2.2.2.2.2.2.2.2.1 (by decide),
    (h.2.2.2.2.2.2.2.2.2.2.2.2.1 (by decide)).trans (by decide)⟩

/-- The calls one `update` can make. -/
theorem update_calls_shape (b : Button) (r : Bool) (t : Nat) :
    (b.update r t).2 = [Event.onPress, Event.onDoublePress]
      ∨ (b.update r t).2 = [Event.onPress, Event.onLongPress]
      ∨ (b.update r t).2 = [Event.onPress]
      ∨ (b.update r t).2 = [Event.onRelease]
      ∨ (b.update r t).2 = [Event.onRelease, Event.onLongPress]
      ∨ (b.update r t).2 = [Event.onSinglePress]
      ∨ (b.update r t).2 = [Event.onLongPress]
      ∨ (b.update r t).2 = [] := by
  by_cases hacc : b.accepts r t
  · by_cases hr : r = b.activeState
    · subst hr
      by_cases ha : b.action = Button_Action.ACTION_SINGLE_PRESS
      · exact Or.inl (update_press_double hacc ha).1
      · rcases Nat.eq_zero_or_pos b.longPressTime with hl | hl
        · exact Or.inr (Or.inl (update_press_long_zero hacc ha hl).1)
        · exact Or.inr (Or.inr (Or.inl (update_press_long hacc ha hl).1))
    · by_cases ha : b.action = Button_Action.ACTION_DOUBLE_PRESS
      · exact Or.inr (Or.inr (Or.inr (Or.inl (update_release_double hacc hr ha).1)))
      · by_cases hl : subUL t b.lastPressTime < b.longPressTime
        · exact Or.inr (Or.inr (Or.inr (Or.inl (update_release_short hacc hr ha hl).1)))
        · have hl2 : b.longPressTime ≤ subUL t b.lastPressTime := by omega
          cases hb : b.action with
          | ACTION_DOUBLE_PRESS => exact absurd hb ha
          | ACTION_SINGLE_PRESS =>
            exact Or.inr (Or.inr (Or.inr (Or.inl (update_release_single hacc hr hb hl2).1)))
          | ACTION_LONG_PRESS =>
            exact Or.inr (Or.inr (Or.inr (Or.inr (Or.inl
              (update_release_long hacc hr hb hl2).1))))
          | ACTION_NONE =>
            exact Or.inr (Or.inr (Or.inr (Or.inl (update_release_none hacc hr hb hl2).1)))
  · cases hb : b.action with
    | ACTION_SINGLE_PRESS =>
      by_cases hd : b.doublePressInterval < subUL t b.lastReleaseTime
      · exact Or.inr (Or.inr (Or.inr (Or.inr (Or.inr (Or.inl
          (update_idle_single_fires hacc hb hd).1)))))
      · exact Or.inr (Or.inr (Or.inr (Or.inr (Or.inr (Or.inr (Or.inr
          (update_idle_single_waits hacc hb hd).1))))))
    | ACTION_LONG_PRESS =>
      by_cases hl : b.longPressTime ≤ subUL t b.lastPressTime
      · exact Or.inr (Or.inr (Or.inr (Or.inr (Or.inr (Or.inr (Or.inl
          (update_idle_long_fires hacc hb hl).1))))))
      · exact Or.inr (Or.inr (Or.inr (Or.inr (Or.inr (Or.inr (Or.inr
          (update_idle_long_waits hacc hb hl).1))))))
    | ACTION_DOUBLE_PRESS =>
      exact Or.inr (Or.inr (Or.inr (Or.inr (Or.inr (Or.inr (Or.inr
        (update_idle_other hacc (by rw [hb]; decide) (by rw [hb]; decide)).1))))))
    | ACTION_NONE =>
      exact Or.inr (Or.inr (Or.inr (Or.inr (Or.inr (Or.inr (Or.inr
        (update_idle_other hacc (by rw [hb]; decide) (by rw [hb]; decide)).1))))))

/-- C18. At most one gesture callback per call: for every state, raw level and time, one call of
`update` calls at most one of the single-press, double-press and long-press callbacks, and it
does not call the single-press callback when it accepts a press or a release (calls the press or
the release callback). -/
theorem one_gesture_per_update (b : Button) (newState : Bool) (mills : Nat) :
    ((b.update newState mills).2.filter Event.isGesture).length ≤ 1
      ∧ (Event.onPress ∈ (b.update newState mills).2 ∨
          Event.onRelease ∈ (b.update newState mills).2 →
            Event.onSinglePress ∉ (b.update newState mills).2) := by
  rcases update_calls_shape b newState mills with h | h | h | h | h | h | h | h <;>
    rw [h] <;> decide

theorem one_gesture_per_update_witness :
    (((run (configured 2 Button_Mode.ACTIVE_HIGH LOW 20 300 600)
        [⟨HIGH, 0⟩, ⟨HIGH, 20⟩, ⟨LOW, 100⟩, ⟨LOW, 120⟩, ⟨HIGH, 270⟩]).1.update HIGH 290).2.filter
          Event.isGesture).length ≤ 1
      ∧ Event.onSinglePress ∉ ((run (configured 2 Button_Mode.ACTIVE_HIGH LOW 20 300 600)
        [⟨HIGH, 0⟩, ⟨HIGH, 20⟩, ⟨LOW, 100⟩, ⟨LOW, 120⟩, ⟨HIGH, 270⟩]).1.update HIGH 290).2 :=
  have h := one_gesture_per_update
    (run (configured 2 Button_Mode.ACTIVE_HIGH LOW 20 300 600)
      [⟨HIGH, 0⟩, ⟨HIGH, 20⟩, ⟨LOW, 100⟩, ⟨LOW, 120⟩, ⟨HIGH, 270⟩]).1 HIGH 290
  ⟨h.1, h.2 (by decide)⟩

/-! ## The scheduled action and the debounced state -/

theorem isPressed_update_press {b : Button} {t : Nat} (hacc : b.accepts b.activeState t) :
    (b.update b.activeState t).1.isPressed = true := by
  simp [Button.isPressed, hacc]

theorem isPressed_update_release {b : Button} {r : Bool} {t : Nat} (hacc : b.accepts r t)
    (hr : r ≠ b.activeState) : (b.update r t).1.isPressed = false := by
  simp [Button.isPressed, hacc, hr]

theorem isPressed_update_idle {b : Button} {r : Bool} {t : Nat} (hacc : ¬ b.accepts r t) :
    (b.update r t).1.isPressed = b.isPressed := by
  simp [Button.isPressed, hacc]

theorem consistent_step (b : Button) (r : Bool) (t : Nat) (h : b.ActionConsistent) :
    (b.update r t).1.ActionConsistent := by
  obtain ⟨h1, h2⟩ := h
  unfold Button.ActionConsistent
  by_cases hacc : b.accepts r t
  · by_cases hr : r = b.activeState
    · subst hr
      rw [isPressed_update_press hacc]
      refine ⟨fun _ => rfl, ?_⟩
      by_cases ha : b.action = Button_Action.ACTION_SINGLE_PRESS
      · rw [(update_press_double hacc ha).2]
        intro hc
        cases hc
      · rcases Nat.eq_zero_or_pos b.longPressTime with hl | hl
        · rw [(update_press_long_zero hacc ha hl).2]
          intro hc
          cases hc
        · rw [(update_press_long hacc ha hl).2]
          intro hc
          cases hc
    · rw [isPressed_update_release hacc hr]
      refine ⟨?_, fun _ => rfl⟩
      by_cases ha : b.action = Button_Action.ACTION_DOUBLE_PRESS
      · rw [(update_release_double hacc hr ha).2]
        rintro (hc | hc) <;> cases hc
      · by_cases hl : subUL t b.lastPressTime < b.longPressTime
        · rw [(update_release_short hacc hr ha hl).2]
          rintro (hc | hc) <;> cases hc
        · have hl2 : b.longPressTime ≤ subUL t b.lastPressTime := by omega
          cases hb : b.action with
          | ACTION_DOUBLE_PRESS => exact absurd hb ha
          | ACTION_SINGLE_PRESS =>
            rw [(update_release_single hacc hr hb hl2).2]
            rintro (hc | hc) <;> cases hc
          | ACTION_LONG_PRESS =>
            rw [(update_release_long hacc hr hb hl2).2]
            rintro (hc | hc) <;> cases hc
          | ACTION_NONE =>
            rw [(update_release_none hacc hr hb hl2).2]
            rintro (hc | hc) <;> cases hc
  · rw [isPressed_update_idle hacc]
    cases hb : b.action with
    | ACTION_SINGLE_PRESS =>
      by_cases hd : b.doublePressInterval < subUL t b.lastReleaseTime
      · rw [(update_idle_single_fires hacc hb hd).2]
        refine ⟨?_, ?_⟩
        · rintro (hc | hc) <;> cases hc
        · intro hc
          cases hc
      · rw [(update_idle_single_waits hacc hb hd).2]
        refine ⟨?_, fun _ => h2 hb⟩
        rintro (hc | hc) <;> cases hc
    | ACTION_LONG_PRESS =>
      by_cases hl : b.longPressTime ≤ subUL t b.lastPressTime
      · rw [(update_idle_long_fires hacc hb hl).2]
        refine ⟨?_, ?_⟩
        · rintro (hc | hc) <;> cases hc
        · intro hc
          cases hc
      · rw [(update_idle_long_waits hacc hb hl).2]
        refine ⟨fun _ => h1 (Or.inl hb), ?_⟩
        intro hc
        cases hc
    | ACTION_DOUBLE_PRESS =>
      rw [(update_idle_other hacc (by rw [hb]; decide) (by rw [hb]; decide)).2, hb]
      refine ⟨fun _ => h1 (Or.inr hb), ?_⟩
      intro hc
      cases hc
    | ACTION_NONE =>
      rw [(update_idle_other hacc (by rw [hb]; decide) (by rw [hb]; decide)).2, hb]
      refine ⟨?_, ?_⟩
      · rintro (hc | hc) <;> cases hc
      · intro hc
        cases hc

theorem consistent_run (ticks : List Tick) (b : Button) (h : b.ActionConsistent) :
    (run b ticks).1.ActionConsistent := by
  induction ticks generalizing b with
  | nil => exact h
  | cons x xs ih =>
    rw [run_cons]
    exact ih _ (consistent_step b x.raw x.now h)

/-- C17. The scheduled action is consistent with the debounced state: start from a state with
no action scheduled (as the initial state is, whatever the pin reads in `begin`) and call
`update` on any ticks, with arbitrary raw levels and timestamps.  In the state reached, hence
after each tick, action `ACTION_LONG_PRESS` or `ACTION_DOUBLE_PRESS` implies that `isPressed()`
is true, and action `ACTION_SINGLE_PRESS` implies that `isPressed()` is false. -/
theorem action_consistent_with_state (b : Button) (ticks : List Tick)
    (ha : b.action = Button_Action.ACTION_NONE) :
    (((run b ticks).1.action = Button_Action.ACTION_LONG_PRESS
        ∨ (run b ticks).1.action = Button_Action.ACTION_DOUBLE_PRESS) →
          (run b ticks).1.isPressed = true)
      ∧ ((run b ticks).1.action = Button_Action.ACTION_SINGLE_PRESS →
          (run b ticks).1.isPressed = false) := by
  have h0 : b.ActionConsistent := by
    unfold Button.ActionConsistent
    rw [ha]
    refine ⟨?_, ?_⟩
    · rintro (hc | hc) <;> cases hc
    · intro hc
      cases hc
  exact consistent_run ticks b h0

theorem action_consistent_with_state_witness :
    (configured 2 Button_Mode.ACTIVE_HIGH HIGH 20 300 600).action = Button_Action.ACTION_NONE
      ∧ (run (configured 2 Button_Mode.ACTIVE_HIGH HIGH 20 300 600)
          [⟨LOW, 100⟩, ⟨LOW, 120⟩]).1.action = Button_Action.ACTION_SINGLE_PRESS
      ∧ (run (configured 2 Button_Mode.ACTIVE_HIGH HIGH 20 300 600)
          [⟨LOW, 100⟩, ⟨LOW, 120⟩]).1.isPressed = false :=
  have h := action_consistent_with_state (configured 2 Button_Mode.ACTIVE_HIGH HIGH 20 300 600)
    [⟨LOW, 100⟩, ⟨LOW, 120⟩] (by decide)
  ⟨by decide, by decide, h.2 (by decide)⟩
